import Mathlib

/-!
TimeperiodsCache.

A shallow embedding of `src/src/TimeperiodsCache.cc`: the cache that remembers,
per time period, whether the period was active at the last refresh.

Modelling choices:

* a `timeperiod *` is the address of a node of the global `timeperiod_list`
  together with the `name` field read through it; `nullptr` is `none`;
* `timeperiod_list` (an `extern` global) and `check_time_against_period` (an
  external function of the monitoring core) are arguments of every operation
  that reads them;
* `std::chrono::system_clock::time_point` is the integer tick count since the
  epoch (nanoseconds), a signed 64-bit count in the source; `1min` is
  `60 * 10^9` ticks and `to_time_t` truncates to whole seconds; the one sum the
  source computes on tick counts, `_last_update + 1min` in the guard of
  `update`, wraps around above `INT64_MAX` (`plus_one_minute`);
* `_cache` (a map from `const timeperiod *` to `bool`) is an association list
  keyed by address, read and written only through `find`, `emplace`, `assign`
  and `empty`;
* the logger is a write-only sink: every operation returns the lines it
  emitted, in order.
-/

namespace Livestatus

/-- Severity of a log line, one constructor per logging front end used by the source. -/
inductive LogLevel where
  | debug
  | informational
  | warning
deriving DecidableEq, Repr

/-- One line handed to the logger. -/
structure LogLine where
  level : LogLevel
  message : String
deriving DecidableEq, Repr

/-- A node of the period list as seen through a non-null `timeperiod *`. -/
structure timeperiod where
  addr : Nat
  name : String
deriving DecidableEq, Repr

/-- Tick count of `system_clock` since the epoch. -/
abbrev time_point := Int

/-- Seconds since the epoch. -/
abbrev time_t := Int

/-- Number of clock ticks in one second. -/
def ticks_per_second : Int := 1000000000

/-- The literal `1min` as a tick count. -/
def one_minute : Int := 60 * ticks_per_second

/-- Largest tick count of the signed 64-bit representation. -/
def INT64_MAX : Int := 9223372036854775807

/-- Smallest tick count of the signed 64-bit representation. -/
def INT64_MIN : Int := -9223372036854775808

/-- Reduction of an integer to the signed 64-bit range, two's complement. -/
def wrap_int64 (x : Int) : Int :=
  (x + 9223372036854775808) % 18446744073709551616 - 9223372036854775808

/-- The sum `_last_update + 1min` of the guard of `update`, computed on the
signed 64-bit tick count: a sum above `INT64_MAX` wraps around. `1min` is
positive, so the sum of a representable tick count leaves the range upwards
only; on every representable tick count this is `wrap_int64 (t + one_minute)`. -/
def plus_one_minute (t : Int) : Int :=
  if INT64_MAX < t + one_minute then t + one_minute - 18446744073709551616
  else t + one_minute

/-- Conversion `system_clock::to_time_t`: truncation to whole seconds. -/
def to_time_t (t : time_point) : time_t := Int.tdiv t ticks_per_second

/-- The external evaluator, `check_time_against_period(time_t, timeperiod *)`. -/
abbrev Evaluator := time_t → Nat → Int

/-- The map `_cache`, keyed by the address of the period. -/
abbrev Cache := List (Nat × Bool)

/-- Lookup `_cache.find(tp)`: the mapped value, or `none` for `end()`. -/
def Cache.find : Cache → Nat → Option Bool
  | [], _ => none
  | (k, v) :: rest, a => if k = a then some v else Cache.find rest a

/-- Insertion `_cache.emplace(tp, v)`: inserts only when the key is absent. -/
def Cache.emplace (c : Cache) (a : Nat) (v : Bool) : Cache :=
  match Cache.find c a with
  | none => (a, v) :: c
  | some _ => c

/-- Assignment `it->second = v` through the iterator returned by `find(a)`. -/
def Cache.assign : Cache → Nat → Bool → Cache
  | [], _, _ => []
  | (k, w) :: rest, a, v =>
    if k = a then (k, v) :: rest else (k, w) :: Cache.assign rest a v

/-- Test `_cache.empty()`. -/
def Cache.empty (c : Cache) : Bool := c.isEmpty

/-- The cache object: the members `_cache` and `_last_update`. -/
structure TimeperiodsCache where
  _cache : Cache
  _last_update : time_point
deriving DecidableEq, Repr

namespace TimeperiodsCache

/-- The constructor `TimeperiodsCache(Logger *logger) : _logger(logger) {}`: its
initialiser list names `_logger` only, so `_cache` and `_last_update` are
default-constructed, an empty map and the epoch. -/
def new : TimeperiodsCache := { _cache := [], _last_update := 0 }

/-- Text written by `logTransition(name, from, to)`. -/
def transitionMessage (name : String) (fromState toState : Int) : String :=
  "TRANSICIÓN DE PERIODO DE TIEMPO: " ++ name ++ ";" ++ toString fromState
    ++ ";" ++ toString toState

/-- The method `logTransition`: one informational line. -/
def logTransition (name : String) (fromState toState : Int) : LogLine :=
  { level := LogLevel.informational, message := transitionMessage name fromState toState }

/-- The expression `b ? 1 : 0`. -/
def boolToInt (b : Bool) : Int := if b then 1 else 0

/-- One iteration of the loop over `timeperiod_list`, shared by `update` and
`logCurrentTimeperiods`: `t` is the `time_t` handed to the evaluator. -/
def visit (check : Evaluator) (t : time_t) (c : Cache) (tp : timeperiod) :
    Cache × List LogLine :=
  let is_in : Bool := decide (check t tp.addr = 0)
  match Cache.find c tp.addr with
  | none => (Cache.emplace c tp.addr is_in, [logTransition tp.name (-1) (boolToInt is_in)])
  | some old =>
    if old != is_in then
      (Cache.assign c tp.addr is_in, [logTransition tp.name (boolToInt old) (boolToInt is_in)])
    else (c, [])

/-- The loop `for (tp = timeperiod_list; tp != nullptr; tp = tp->next)`. -/
def pass (check : Evaluator) (t : time_t) : Cache → List timeperiod → Cache × List LogLine
  | c, [] => (c, [])
  | c, tp :: rest =>
    let r := visit check t c tp
    let q := pass check t r.1 rest
    (q.1, r.2 ++ q.2)

/-- Text of the informational line of `update`. -/
def removedMessage : String :=
  "Se han eliminado todos los periodos de tiempo de la configuración"

/-- Text of the debug line of `update`. -/
def noPeriodsMessage : String :=
  "Caché de periodos de tiempo actualizada, pero no hay periodos definidos"

/-- The tail of `update`: the two messages about an empty cache. -/
def emptyReport (c : Cache) (had_timeperiods : Bool) : List LogLine :=
  if Cache.empty c && had_timeperiods then
    [{ level := LogLevel.informational, message := removedMessage }]
  else if Cache.empty c then
    [{ level := LogLevel.debug, message := noPeriodsMessage }]
  else []

/-- The method `update(now)`. -/
def update (s : TimeperiodsCache) (now : time_point) (timeperiod_list : List timeperiod)
    (check : Evaluator) : TimeperiodsCache × List LogLine :=
  if now < plus_one_minute s._last_update then (s, [])
  else
    let had_timeperiods := !Cache.empty s._cache
    let r := pass check (to_time_t now) s._cache timeperiod_list
    ({ _cache := r.1, _last_update := now }, r.2 ++ emptyReport r.1 had_timeperiods)

/-- The method `logCurrentTimeperiods()`; `wall` is the reading of
`system_clock::now()` taken inside it. -/
def logCurrentTimeperiods (s : TimeperiodsCache) (wall : time_point)
    (timeperiod_list : List timeperiod) (check : Evaluator) :
    TimeperiodsCache × List LogLine :=
  let r := pass check (to_time_t wall) s._cache timeperiod_list
  ({ _cache := r.1, _last_update := s._last_update }, r.2)

/-- Text of the warning of `inTimeperiod(const timeperiod *)`. -/
def missingMessage (name : String) : String :=
  "No hay información disponible para el periodo " ++ name
    ++ ". Se asume que está activo (24x7)."

/-- The method `inTimeperiod(const timeperiod *)`: the answer and the lines
emitted. The method is `const`: the members are read, never written. -/
def inTimeperiod (s : TimeperiodsCache) : Option timeperiod → Bool × List LogLine
  | none => (true, [])
  | some tp =>
    match Cache.find s._cache tp.addr with
    | none => (true, [{ level := LogLevel.warning, message := missingMessage tp.name }])
    | some v => (v, [])

/-- The method `inTimeperiod(const std::string &)`: the first period of the
list with that name is looked up by handle. -/
def inTimeperiodByName (s : TimeperiodsCache) (tpname : String) :
    List timeperiod → Bool × List LogLine
  | [] => (true, [])
  | tp :: rest =>
    if tpname = tp.name then inTimeperiod s (some tp)
    else inTimeperiodByName s tpname rest

/-- A call of one of the public methods, with the environment it reads. -/
inductive Call where
  | update (now : time_point) (timeperiod_list : List timeperiod) (check : Evaluator)
  | logCurrentTimeperiods (wall : time_point) (timeperiod_list : List timeperiod)
      (check : Evaluator)
  | inTimeperiod (tp : Option timeperiod)
  | inTimeperiodByName (tpname : String) (timeperiod_list : List timeperiod)

/-- State after a call and the lines it emitted; the two `const` queries leave
the object as it is. -/
def Call.run (s : TimeperiodsCache) : Call → TimeperiodsCache × List LogLine
  | Call.update now l check => TimeperiodsCache.update s now l check
  | Call.logCurrentTimeperiods wall l check => TimeperiodsCache.logCurrentTimeperiods s wall l check
  | Call.inTimeperiod tp => (s, (TimeperiodsCache.inTimeperiod s tp).2)
  | Call.inTimeperiodByName n l => (s, (TimeperiodsCache.inTimeperiodByName s n l).2)

/-- State after a sequence of calls, first call first. -/
def runAll : TimeperiodsCache → List Call → TimeperiodsCache
  | s, [] => s
  | s, c :: cs => runAll (Call.run s c).1 cs

/-- A call that is a query, or an `update` that arrives inside the throttle
window of the state it is made on, the end of the window being a
representable tick count. -/
def Call.isQueryOrThrottled (s : TimeperiodsCache) : Call → Bool
  | Call.update now _ _ =>
    decide (now < s._last_update + one_minute)
      && decide (s._last_update + one_minute ≤ INT64_MAX)
  | Call.logCurrentTimeperiods _ _ _ => false
  | Call.inTimeperiod _ => true
  | Call.inTimeperiodByName _ _ => true

/-- Every call of the sequence is a query or a throttled `update`, each judged
on the state it is made on. -/
def allQueryOrThrottled : TimeperiodsCache → List Call → Bool
  | _, [] => true
  | s, c :: cs => Call.isQueryOrThrottled s c && allQueryOrThrottled (Call.run s c).1 cs

/-- The loop of `logCurrentTimeperiods` (lines 24 to 36) transcribed on its
own, statement by statement; `now` is the `time_t` computed before the loop. -/
def logCurrentTimeperiodsLoop (check : Evaluator) (now : time_t) :
    Cache → List timeperiod → Cache × List LogLine
  | c, [] => (c, [])
  | c, tp :: rest =>
    let is_in : Bool := decide (check now tp.addr = 0)
    match Cache.find c tp.addr with
    | none =>
      let q := logCurrentTimeperiodsLoop check now (Cache.emplace c tp.addr is_in) rest
      (q.1, logTransition tp.name (-1) (boolToInt is_in) :: q.2)
    | some old =>
      if old != is_in then
        let q := logCurrentTimeperiodsLoop check now (Cache.assign c tp.addr is_in) rest
        (q.1, logTransition tp.name (boolToInt old) (boolToInt is_in) :: q.2)
      else logCurrentTimeperiodsLoop check now c rest

/-- The method `logCurrentTimeperiods()` over its own loop. -/
def logCurrentTimeperiodsInline (s : TimeperiodsCache) (wall : time_point)
    (timeperiod_list : List timeperiod) (check : Evaluator) :
    TimeperiodsCache × List LogLine :=
  let r := logCurrentTimeperiodsLoop check (to_time_t wall) s._cache timeperiod_list
  ({ _cache := r.1, _last_update := s._last_update }, r.2)

/-- A call of `logTransition` made by the loop, together with the address of
the period it was made for. -/
structure Transition where
  addr : Nat
  name : String
  fromState : Int
  toState : Int
deriving DecidableEq, Repr

/-- The line written by that call of `logTransition`. -/
def Transition.line (e : Transition) : LogLine :=
  logTransition e.name e.fromState e.toState

/-- The calls of `logTransition` made by one iteration of the loop. -/
def visitTransitions (check : Evaluator) (t : time_t) (c : Cache) (tp : timeperiod) :
    List Transition :=
  let is_in : Bool := decide (check t tp.addr = 0)
  match Cache.find c tp.addr with
  | none =>
    [{ addr := tp.addr, name := tp.name, fromState := -1, toState := boolToInt is_in }]
  | some old =>
    if old != is_in then
      [{ addr := tp.addr, name := tp.name, fromState := boolToInt old,
         toState := boolToInt is_in }]
    else []

/-- The calls of `logTransition` made by the whole loop, in order. -/
def passTransitions (check : Evaluator) (t : time_t) :
    Cache → List timeperiod → List Transition
  | _, [] => []
  | c, tp :: rest =>
    visitTransitions check t c tp ++ passTransitions check t (visit check t c tp).1 rest

/-- The calls of `logTransition` made during one call of a public method. -/
def Call.transitions (s : TimeperiodsCache) : Call → List Transition
  | Call.update now l check =>
    if now < plus_one_minute s._last_update then []
    else passTransitions check (to_time_t now) s._cache l
  | Call.logCurrentTimeperiods wall l check =>
    passTransitions check (to_time_t wall) s._cache l
  | Call.inTimeperiod _ => []
  | Call.inTimeperiodByName _ _ => []

/-- The calls of `logTransition` made during a sequence of calls, in order. -/
def runTransitions : TimeperiodsCache → List Call → List Transition
  | _, [] => []
  | s, c :: cs => Call.transitions s c ++ runTransitions (Call.run s c).1 cs

/-- The transitions logged for the period at address `a` during a sequence of calls. -/
def transitionsOf (s : TimeperiodsCache) (cs : List Call) (a : Nat) : List Transition :=
  (runTransitions s cs).filter (fun e => decide (e.addr = a))

/-- The period list a call is given; a query by handle is given none. -/
def Call.listed : Call → List timeperiod
  | Call.update _ l _ => l
  | Call.logCurrentTimeperiods _ l _ => l
  | Call.inTimeperiod _ => []
  | Call.inTimeperiodByName _ l => l

/-- State of a key as `logTransition` prints it: `-1` without an entry,
otherwise `1` or `0`. -/
def stateOf (c : Cache) (a : Nat) : Int :=
  match Cache.find c a with
  | none => -1
  | some v => boolToInt v

/-- Check that a sequence of transitions continues from the state `cur`:
each starts where the previous one ended, ends in `0` or `1`, and changes the state. -/
def isChainFrom : Int → List Transition → Bool
  | _, [] => true
  | cur, e :: rest =>
    decide (e.fromState = cur) && decide (e.toState = 0 ∨ e.toState = 1)
      && decide (e.fromState ≠ e.toState) && isChainFrom e.toState rest

/-- The state in which a sequence of transitions that starts from `cur` ends. -/
def chainEnd : Int → List Transition → Int
  | cur, [] => cur
  | _, e :: rest => chainEnd e.toState rest

/-- The lines emitted during a sequence of calls, in order. -/
def runLog : TimeperiodsCache → List Call → List LogLine
  | _, [] => []
  | s, c :: cs => (Call.run s c).2 ++ runLog (Call.run s c).1 cs

/-- The fixed text that opens every line written by `logTransition`. -/
def transitionHeader : String := "TRANSICIÓN DE PERIODO DE TIEMPO: "

/-- Recognises the lines written by `logTransition` in a log: informational
lines opened by the fixed text. -/
def isTransitionLine (line : LogLine) : Bool :=
  decide (line.level = LogLevel.informational)
    && transitionHeader.data.isPrefixOf line.message.data

end TimeperiodsCache

/-! Lemmas on the map. -/

theorem Cache.find_emplace (c : Cache) (a b : Nat) (v : Bool) :
    Cache.find (Cache.emplace c a v) b
      = if Cache.find c a = none ∧ a = b then some v else Cache.find c b := by
  unfold Cache.emplace
  cases h : Cache.find c a with
  | none =>
    by_cases hab : a = b
    · simp [Cache.find, hab]
    · simp [Cache.find, hab]
  | some w => simp

theorem Cache.find_assign (c : Cache) (a b : Nat) (v : Bool) :
    Cache.find (Cache.assign c a v) b
      = if a = b then (Cache.find c a).map (fun _ => v) else Cache.find c b := by
  induction c with
  | nil => simp [Cache.assign, Cache.find]
  | cons e rest ih =>
    obtain ⟨k, w⟩ := e
    by_cases hka : k = a
    · subst hka
      by_cases hkb : k = b
      · simp [Cache.assign, Cache.find, hkb]
      · simp [Cache.assign, Cache.find, hkb]
    · by_cases hkb : k = b
      · subst hkb
        have hab : ¬ a = k := fun h => hka h.symm
        simp [Cache.assign, Cache.find, hka, hab]
      · simp [Cache.assign, Cache.find, hka, hkb, ih]

theorem Cache.empty_eq_true_iff (c : Cache) : Cache.empty c = true ↔ c = [] := by
  cases c <;> simp [Cache.empty]

namespace TimeperiodsCache

/-! Lemmas on the loop. -/

/-- After its iteration a period is cached with the value computed for it. -/
theorem find_visit_self (check : Evaluator) (t : time_t) (c : Cache) (tp : timeperiod) :
    Cache.find (visit check t c tp).1 tp.addr = some (decide (check t tp.addr = 0)) := by
  unfold visit
  cases h : Cache.find c tp.addr with
  | none => simp [Cache.find_emplace, h]
  | some old =>
    by_cases hd : old = decide (check t tp.addr = 0)
    · simp [hd.symm, h]
    · simp [hd, Cache.find_assign, h]

/-- An iteration leaves the entries of all other keys as they are. -/
theorem find_visit_other (check : Evaluator) (t : time_t) (c : Cache) (tp : timeperiod)
    (b : Nat) (hb : tp.addr ≠ b) :
    Cache.find (visit check t c tp).1 b = Cache.find c b := by
  unfold visit
  cases h : Cache.find c tp.addr with
  | none => simp [Cache.find_emplace, hb]
  | some old =>
    by_cases hd : old = decide (check t tp.addr = 0)
    · simp [hd.symm]
    · simp [hd, Cache.find_assign, hb]

/-- A key that holds the computed value keeps it through the rest of the loop. -/
theorem find_pass_of_computed (check : Evaluator) (t : time_t) (l : List timeperiod) :
    ∀ (c : Cache) (a : Nat), Cache.find c a = some (decide (check t a = 0)) →
      Cache.find (pass check t c l).1 a = some (decide (check t a = 0)) := by
  induction l with
  | nil => intro c a h; simpa [pass] using h
  | cons tp rest ih =>
    intro c a h
    simp only [pass]
    apply ih
    by_cases hta : tp.addr = a
    · subst hta; exact find_visit_self check t c tp
    · rw [find_visit_other check t c tp a hta]; exact h

/-- After the loop every listed period is cached with the value computed for it. -/
theorem find_pass_of_mem (check : Evaluator) (t : time_t) (l : List timeperiod) :
    ∀ (c : Cache) (p : timeperiod), p ∈ l →
      Cache.find (pass check t c l).1 p.addr = some (decide (check t p.addr = 0)) := by
  induction l with
  | nil => intro c p hp; cases hp
  | cons tp rest ih =>
    intro c p hp
    simp only [pass]
    rcases List.mem_cons.mp hp with h | h
    · subst h
      exact find_pass_of_computed check t rest _ _ (find_visit_self check t c p)
    · exact ih _ p h

/-- A key that belongs to no listed period is not touched by the loop. -/
theorem find_pass_of_not_mem (check : Evaluator) (t : time_t) (l : List timeperiod) :
    ∀ (c : Cache) (b : Nat), (∀ p ∈ l, p.addr ≠ b) →
      Cache.find (pass check t c l).1 b = Cache.find c b := by
  induction l with
  | nil => intro c b _; simp [pass]
  | cons tp rest ih =>
    intro c b h
    simp only [pass]
    rw [ih _ b (fun p hp => h p (List.mem_cons_of_mem _ hp))]
    exact find_visit_other check t c tp b (h tp (List.mem_cons_self _ _))

/-- The wrapped sum is never above the exact sum. -/
theorem plus_one_minute_le (t : Int) : plus_one_minute t ≤ t + one_minute := by
  unfold plus_one_minute
  split
  · linarith
  · exact le_refl _

/-- A representable sum is not wrapped. -/
theorem plus_one_minute_of_le (t : Int) (h : t + one_minute ≤ INT64_MAX) :
    plus_one_minute t = t + one_minute := by
  unfold plus_one_minute
  rw [if_neg (not_lt.mpr h)]

/-- On a representable tick count the sum of the guard is the two's complement sum. -/
theorem plus_one_minute_eq_wrap (t : Int) (hlo : INT64_MIN ≤ t) (hhi : t ≤ INT64_MAX) :
    plus_one_minute t = wrap_int64 (t + one_minute) := by
  have h60 : one_minute = 60000000000 := by decide
  have hmax : INT64_MAX = 9223372036854775807 := rfl
  have hmin : INT64_MIN = -9223372036854775808 := rfl
  unfold plus_one_minute wrap_int64
  rw [h60, hmax]
  rw [hmin] at hlo
  rw [hmax] at hhi
  split <;> omega

/-- An `update` that passes the guard, unfolded. -/
theorem update_of_not_guard (s : TimeperiodsCache) (now : time_point) (l : List timeperiod)
    (check : Evaluator) (h : ¬ now < plus_one_minute s._last_update) :
    update s now l check
      = ({ _cache := (pass check (to_time_t now) s._cache l).1, _last_update := now },
         (pass check (to_time_t now) s._cache l).2
           ++ emptyReport (pass check (to_time_t now) s._cache l).1 (!Cache.empty s._cache)) := by
  unfold update
  rw [if_neg h]

/-- An `update` stopped by the guard, unfolded. -/
theorem update_of_guard (s : TimeperiodsCache) (now : time_point) (l : List timeperiod)
    (check : Evaluator) (h : now < plus_one_minute s._last_update) :
    update s now l check = (s, []) := by
  unfold update
  rw [if_pos h]

/-- An `update` outside the throttle window, unfolded. -/
theorem update_of_le (s : TimeperiodsCache) (now : time_point) (l : List timeperiod)
    (check : Evaluator) (h : s._last_update + one_minute ≤ now) :
    update s now l check
      = ({ _cache := (pass check (to_time_t now) s._cache l).1, _last_update := now },
         (pass check (to_time_t now) s._cache l).2
           ++ emptyReport (pass check (to_time_t now) s._cache l).1 (!Cache.empty s._cache)) :=
  update_of_not_guard s now l check
    (not_lt.mpr (le_trans (plus_one_minute_le s._last_update) h))

/-- An `update` inside the throttle window, the end of the window being
representable, unfolded. -/
theorem update_of_lt (s : TimeperiodsCache) (now : time_point) (l : List timeperiod)
    (check : Evaluator) (h : now < s._last_update + one_minute)
    (hrep : s._last_update + one_minute ≤ INT64_MAX) :
    update s now l check = (s, []) :=
  update_of_guard s now l check (by rw [plus_one_minute_of_le _ hrep]; exact h)

/-- The name-based query resolves the name to the first period of the list
that bears it and asks by handle; with no such period it answers `true` and
logs nothing. -/
theorem inTimeperiodByName_eq (s : TimeperiodsCache) (n : String) (l : List timeperiod) :
    inTimeperiodByName s n l
      = match l.find? (fun q => decide (n = q.name)) with
        | none => (true, [])
        | some p => inTimeperiod s (some p) := by
  induction l with
  | nil => simp [inTimeperiodByName]
  | cons tp rest ih =>
    by_cases h : n = tp.name
    · simp [inTimeperiodByName, List.find?, h]
    · simp [inTimeperiodByName, List.find?, h, ih]

/-- In a list without a period of that name the search finds nothing. -/
theorem find?_name_eq_none (n : String) (l : List timeperiod) (h : ∀ p ∈ l, p.name ≠ n) :
    l.find? (fun q => decide (n = q.name)) = none := by
  rw [List.find?_eq_none]
  intro p hp
  have := h p hp
  simpa using fun hn => this hn.symm

/-- In a list with pairwise distinct names the search for the name of a
listed period finds that period. -/
theorem find?_name_of_nodup (l : List timeperiod) :
    (l.map timeperiod.name).Nodup → ∀ p ∈ l,
      l.find? (fun q => decide (p.name = q.name)) = some p := by
  induction l with
  | nil => intro _ p hp; cases hp
  | cons tp rest ih =>
    intro hn p hp
    rw [List.map_cons, List.nodup_cons] at hn
    rcases List.mem_cons.mp hp with h | h
    · subst h; simp [List.find?]
    · have hne : ¬ p.name = tp.name := by
        intro he
        exact hn.1 (he ▸ List.mem_map_of_mem timeperiod.name h)
      simp only [List.find?, hne, decide_False]
      exact ih hn.2 p h

/-- A query, and an `update` inside the throttle window, return the object as it was. -/
theorem run_of_isQueryOrThrottled (s : TimeperiodsCache) (c : Call)
    (h : Call.isQueryOrThrottled s c = true) : (Call.run s c).1 = s := by
  cases c with
  | update now l check =>
    simp only [Call.isQueryOrThrottled, Bool.and_eq_true, decide_eq_true_eq] at h
    simp only [Call.run]
    rw [update_of_lt s now l check h.1 h.2]
  | logCurrentTimeperiods wall l check => simp [Call.isQueryOrThrottled] at h
  | inTimeperiod tp => rfl
  | inTimeperiodByName n l => rfl

/-- A sequence of queries and throttled updates returns the object as it was. -/
theorem runAll_of_allQueryOrThrottled (cs : List Call) :
    ∀ s : TimeperiodsCache, allQueryOrThrottled s cs = true → runAll s cs = s := by
  induction cs with
  | nil => intro s _; rfl
  | cons c rest ih =>
    intro s h
    simp only [allQueryOrThrottled, Bool.and_eq_true] at h
    obtain ⟨h1, h2⟩ := h
    have hs := run_of_isQueryOrThrottled s c h1
    simp only [runAll]
    rw [hs] at h2 ⊢
    exact ih s h2

/-- The lines of an iteration depend on the cache only through the entry of
the visited period. -/
theorem visit_lines_congr (check : Evaluator) (t : time_t) (c1 c2 : Cache) (tp : timeperiod)
    (h : Cache.find c1 tp.addr = Cache.find c2 tp.addr) :
    (visit check t c1 tp).2 = (visit check t c2 tp).2 := by
  cases h2 : Cache.find c2 tp.addr with
  | none =>
    have h1 := h.trans h2
    simp [visit, h1, h2]
  | some old =>
    have h1 := h.trans h2
    by_cases hd : old = decide (check t tp.addr = 0)
    · simp [visit, h1, h2, hd.symm]
    · simp [visit, h1, h2, hd]

/-- Over a list of pairwise distinct periods the loop emits, period by period
in list order, the lines that the period's iteration emits on the cache the
loop started from. -/
theorem pass_lines_of_nodup (check : Evaluator) (t : time_t) (l : List timeperiod) :
    (l.map timeperiod.addr).Nodup → ∀ c : Cache,
      (pass check t c l).2 = l.flatMap (fun p => (visit check t c p).2) := by
  induction l with
  | nil => intro _ c; simp [pass]
  | cons tp rest ih =>
    intro hn c
    rw [List.map_cons, List.nodup_cons] at hn
    simp only [pass, List.flatMap_cons]
    rw [ih hn.2 (visit check t c tp).1]
    congr 1
    apply List.flatMap_congr
    intro q hq
    apply visit_lines_congr
    apply find_visit_other
    intro he
    exact hn.1 (he ▸ List.mem_map_of_mem timeperiod.addr hq)

/-- The text of a transition line from a cached `old` to a different value. -/
theorem transitionMessage_flip (name : String) (old : Bool) :
    transitionMessage name (boolToInt old) (boolToInt (!old))
      = "TRANSICIÓN DE PERIODO DE TIEMPO: " ++ name ++ (if old then ";1;0" else ";0;1") := by
  cases old
  · simp only [transitionMessage, boolToInt, String.append_assoc]; rfl
  · simp only [transitionMessage, boolToInt, String.append_assoc]; rfl

/-- One minute is a positive number of ticks. -/
theorem one_minute_pos : 0 < one_minute := by decide

/-! The claims. -/

/-- C1: when `now` is at least one minute past `_last_update`, after
`update(now)` every period of the list has a cache entry, the entry is `true`
exactly when `check_time_against_period(now, p)` returned 0, and
`inTimeperiod(p)` by handle answers with that value. -/
theorem update_caches_computed_state (s : TimeperiodsCache) (now : time_point)
    (l : List timeperiod) (check : Evaluator) (h : s._last_update + one_minute ≤ now) :
    ∀ p ∈ l,
      (∃ v : Bool, Cache.find (update s now l check).1._cache p.addr = some v
        ∧ (v = true ↔ check (to_time_t now) p.addr = 0)
        ∧ (inTimeperiod (update s now l check).1 (some p)).1 = v) := by
  intro p hp
  refine ⟨decide (check (to_time_t now) p.addr = 0), ?_, by simp, ?_⟩
  · rw [update_of_le s now l check h]
    exact find_pass_of_mem check (to_time_t now) l s._cache p hp
  · rw [update_of_le s now l check h]
    simp only [inTimeperiod]
    rw [find_pass_of_mem check (to_time_t now) l s._cache p hp]

/-- Witness of C1: a cache last refreshed at the epoch, refreshed again two
minutes later over two periods, the second of them inactive. -/
theorem update_caches_computed_state_witness :
    (0 : Int) + one_minute ≤ 120000000000 ∧
    ∀ p ∈ [({ addr := 1, name := "24x7" } : timeperiod), { addr := 2, name := "workhours" }],
      (∃ v : Bool,
        Cache.find (update TimeperiodsCache.new 120000000000
            [{ addr := 1, name := "24x7" }, { addr := 2, name := "workhours" }]
            (fun _ a => if a = 1 then 0 else 1)).1._cache p.addr = some v
        ∧ (v = true ↔ (fun (_ : time_t) (a : Nat) => if a = 1 then (0 : Int) else 1)
              (to_time_t 120000000000) p.addr = 0)
        ∧ (inTimeperiod (update TimeperiodsCache.new 120000000000
            [{ addr := 1, name := "24x7" }, { addr := 2, name := "workhours" }]
            (fun _ a => if a = 1 then 0 else 1)).1 (some p)).1 = v) :=
  ⟨by decide, update_caches_computed_state TimeperiodsCache.new 120000000000
    [{ addr := 1, name := "24x7" }, { addr := 2, name := "workhours" }]
    (fun _ a => if a = 1 then 0 else 1) (by decide)⟩

/-- C2, counterexample: with `_last_update` ten ticks below `INT64_MAX` the sum
`_last_update + 1min` of the guard wraps around, and `update` at second 100,
which is earlier than `_last_update + 1min`, is not without effect: it logs
`24x7;1;0`, rewrites the entry and sets `_last_update` to second 100. -/
theorem update_throttled_overflow_counterexample :
    ¬ ((100000000000 : Int) < 9223372036854775797 + one_minute →
        update { _cache := [(1, true)], _last_update := 9223372036854775797 } 100000000000
            [{ addr := 1, name := "24x7" }] (fun _ _ => 1)
          = ({ _cache := [(1, true)], _last_update := 9223372036854775797 }, [])) := by
  decide

/-- C2, amended: when `_last_update + 1min` is a representable tick count, an
`update(T1)` with `T1 < _last_update + 1min`, be it later than, equal to or
earlier than `_last_update`, emits no log line of any level and returns the
object as it was: same entries, no new entry, same `_last_update`, for every
period list and every evaluator. -/
theorem update_throttled_no_effect (s : TimeperiodsCache) (T1 : time_point)
    (l : List timeperiod) (check : Evaluator) (h : T1 < s._last_update + one_minute)
    (hrep : s._last_update + one_minute ≤ INT64_MAX) :
    (update s T1 l check).2 = []
      ∧ (update s T1 l check).1._cache = s._cache
      ∧ (update s T1 l check).1._last_update = s._last_update
      ∧ (update s T1 l check).1 = s := by
  rw [update_of_lt s T1 l check h hrep]
  exact ⟨rfl, rfl, rfl, rfl⟩

/-- Witness of the amended C2: a refresh thirty seconds before the last one,
with a period whose state would flip. -/
theorem update_throttled_no_effect_witness :
    (70000000000 : Int) < 100000000000 + one_minute ∧
    (100000000000 : Int) + one_minute ≤ INT64_MAX ∧
    (update { _cache := [(1, true)], _last_update := 100000000000 } 70000000000
        [{ addr := 1, name := "24x7" }, { addr := 2, name := "workhours" }]
        (fun _ _ => 1)).2 = []
      ∧ (update { _cache := [(1, true)], _last_update := 100000000000 } 70000000000
        [{ addr := 1, name := "24x7" }, { addr := 2, name := "workhours" }]
        (fun _ _ => 1)).1._cache = [(1, true)]
      ∧ (update { _cache := [(1, true)], _last_update := 100000000000 } 70000000000
        [{ addr := 1, name := "24x7" }, { addr := 2, name := "workhours" }]
        (fun _ _ => 1)).1._last_update = 100000000000
      ∧ (update { _cache := [(1, true)], _last_update := 100000000000 } 70000000000
        [{ addr := 1, name := "24x7" }, { addr := 2, name := "workhours" }]
        (fun _ _ => 1)).1 = { _cache := [(1, true)], _last_update := 100000000000 } :=
  ⟨by decide, by decide, update_throttled_no_effect
    { _cache := [(1, true)], _last_update := 100000000000 } 70000000000
    [{ addr := 1, name := "24x7" }, { addr := 2, name := "workhours" }]
    (fun _ _ => 1) (by decide) (by decide)⟩

/-- C3: `inTimeperiod` is fail-open. On every cache state it answers `true`
for a null handle, for a non-null handle that has no entry, for a name that no
listed period bears, and for a name whose listed period (the first of that
name in list order, which is the only one when names are distinct) has no entry. -/
theorem inTimeperiod_fail_open (s : TimeperiodsCache) :
    (inTimeperiod s none).1 = true
      ∧ (∀ tp : timeperiod, Cache.find s._cache tp.addr = none →
          (inTimeperiod s (some tp)).1 = true)
      ∧ (∀ (n : String) (l : List timeperiod), (∀ p ∈ l, p.name ≠ n) →
          (inTimeperiodByName s n l).1 = true)
      ∧ (∀ (n : String) (l : List timeperiod) (p : timeperiod),
          l.find? (fun q => decide (n = q.name)) = some p →
          Cache.find s._cache p.addr = none →
          (inTimeperiodByName s n l).1 = true)
      ∧ (∀ (n : String) (l : List timeperiod) (p : timeperiod),
          (l.map timeperiod.name).Nodup → p ∈ l → p.name = n →
          Cache.find s._cache p.addr = none →
          (inTimeperiodByName s n l).1 = true) := by
  have hHandle : ∀ tp : timeperiod, Cache.find s._cache tp.addr = none →
      (inTimeperiod s (some tp)).1 = true := by
    intro tp h
    simp [inTimeperiod, h]
  have hFirst : ∀ (n : String) (l : List timeperiod) (p : timeperiod),
      l.find? (fun q => decide (n = q.name)) = some p →
      Cache.find s._cache p.addr = none → (inTimeperiodByName s n l).1 = true := by
    intro n l p hf hc
    rw [inTimeperiodByName_eq, hf]
    exact hHandle p hc
  refine ⟨rfl, hHandle, ?_, hFirst, ?_⟩
  · intro n l h
    rw [inTimeperiodByName_eq, find?_name_eq_none n l h]
  · intro n l p hn hp hpn hc
    subst hpn
    exact hFirst p.name l p (find?_name_of_nodup l hn p hp) hc

/-- Witness of C3: a cache that holds `false` for one period, asked about a
null handle, about an uncached handle, about an unknown name and about the
name of a listed but uncached period. -/
theorem inTimeperiod_fail_open_witness :
    (inTimeperiod { _cache := [(1, false)], _last_update := 0 } none).1 = true
      ∧ (inTimeperiod { _cache := [(1, false)], _last_update := 0 }
          (some { addr := 2, name := "workhours" })).1 = true
      ∧ (inTimeperiodByName { _cache := [(1, false)], _last_update := 0 } "nonexistent"
          [{ addr := 1, name := "24x7" }, { addr := 2, name := "workhours" }]).1 = true
      ∧ (inTimeperiodByName { _cache := [(1, false)], _last_update := 0 } "workhours"
          [{ addr := 1, name := "24x7" }, { addr := 2, name := "workhours" }]).1 = true :=
  ⟨(inTimeperiod_fail_open { _cache := [(1, false)], _last_update := 0 }).1,
   (inTimeperiod_fail_open { _cache := [(1, false)], _last_update := 0 }).2.1
      { addr := 2, name := "workhours" } (by decide),
   (inTimeperiod_fail_open { _cache := [(1, false)], _last_update := 0 }).2.2.1
      "nonexistent" [{ addr := 1, name := "24x7" }, { addr := 2, name := "workhours" }]
      (by decide),
   (inTimeperiod_fail_open { _cache := [(1, false)], _last_update := 0 }).2.2.2.2
      "workhours" [{ addr := 1, name := "24x7" }, { addr := 2, name := "workhours" }]
      { addr := 2, name := "workhours" } (by decide) (by decide) rfl (by decide)⟩

/-- C4, counterexample: `24x7` is cached active and `_last_update` is ten ticks
below `INT64_MAX`; `update` at second 100 is earlier than `_last_update + 1min`,
yet the sum of the guard wraps around, the refresh runs with an evaluator that
reports inactive, and `inTimeperiod` no longer answers with the cached `true`. -/
theorem cached_value_overflow_counterexample :
    ¬ (Cache.find [(1, true)] 1 = some true →
        (100000000000 : Int) < 9223372036854775797 + one_minute →
        (inTimeperiod
          (runAll { _cache := [(1, true)], _last_update := 9223372036854775797 }
            [Call.update 100000000000 [{ addr := 1, name := "24x7" }] (fun _ _ => 1)])
          (some { addr := 1, name := "24x7" })).1 = true) := by
  decide

/-- C4, amended: when period `P` has a cache entry with value `S`,
`inTimeperiod(P)` answers `S` (the query takes no evaluator, so none is
called), and it still answers `S` after any finite sequence of queries and of
`update(T)` calls made inside the throttle window (`T < _last_update + 1min`,
the sum being a representable tick count), whatever period lists and
evaluators those calls are given. -/
theorem cached_value_stable (s : TimeperiodsCache) (P : timeperiod) (S : Bool)
    (cs : List Call) (h : Cache.find s._cache P.addr = some S)
    (hq : allQueryOrThrottled s cs = true) :
    inTimeperiod s (some P) = (S, [])
      ∧ inTimeperiod (runAll s cs) (some P) = (S, []) := by
  have h0 : inTimeperiod s (some P) = (S, []) := by simp [inTimeperiod, h]
  refine ⟨h0, ?_⟩
  rw [runAll_of_allQueryOrThrottled cs s hq]
  exact h0

/-- Witness of the amended C4: a cached `false` survives a query by handle, a throttled
refresh whose evaluator reports active, and a query by name. -/
theorem cached_value_stable_witness :
    Cache.find [(1, false)] 1 = some false
      ∧ allQueryOrThrottled { _cache := [(1, false)], _last_update := 100000000000 }
          [Call.inTimeperiod (some { addr := 1, name := "24x7" }),
           Call.update 130000000000 [{ addr := 1, name := "24x7" }] (fun _ _ => 0),
           Call.inTimeperiodByName "24x7" [{ addr := 1, name := "24x7" }]] = true
      ∧ inTimeperiod { _cache := [(1, false)], _last_update := 100000000000 }
          (some { addr := 1, name := "24x7" }) = (false, [])
      ∧ inTimeperiod
          (runAll { _cache := [(1, false)], _last_update := 100000000000 }
            [Call.inTimeperiod (some { addr := 1, name := "24x7" }),
             Call.update 130000000000 [{ addr := 1, name := "24x7" }] (fun _ _ => 0),
             Call.inTimeperiodByName "24x7" [{ addr := 1, name := "24x7" }]])
          (some { addr := 1, name := "24x7" }) = (false, []) :=
  ⟨by decide, by decide,
   cached_value_stable { _cache := [(1, false)], _last_update := 100000000000 }
    { addr := 1, name := "24x7" } false
    [Call.inTimeperiod (some { addr := 1, name := "24x7" }),
     Call.update 130000000000 [{ addr := 1, name := "24x7" }] (fun _ _ => 0),
     Call.inTimeperiodByName "24x7" [{ addr := 1, name := "24x7" }]]
    (by decide) (by decide)⟩

/-- C5: for a period `P` without a cache entry, as every period is before the
first `update`, `inTimeperiod(P)` by non-null handle emits exactly one line, a
warning whose text contains the name of `P`; by null handle it emits no line. -/
theorem inTimeperiod_missing_warns_once (s : TimeperiodsCache) (P : timeperiod)
    (h : Cache.find s._cache P.addr = none) :
    (inTimeperiod s (some P)).2
        = [{ level := LogLevel.warning,
             message := "No hay información disponible para el periodo " ++ P.name
               ++ ". Se asume que está activo (24x7)." }]
      ∧ (inTimeperiod s none).2 = [] := by
  simp [inTimeperiod, h, missingMessage]

/-- Witness of C5: the freshly constructed cache asked about `workhours`. -/
theorem inTimeperiod_missing_warns_once_witness :
    Cache.find TimeperiodsCache.new._cache 7 = none
      ∧ (inTimeperiod TimeperiodsCache.new (some { addr := 7, name := "workhours" })).2
          = [{ level := LogLevel.warning,
               message := "No hay información disponible para el periodo " ++ "workhours"
                 ++ ". Se asume que está activo (24x7)." }]
      ∧ (inTimeperiod TimeperiodsCache.new none).2 = [] :=
  ⟨by decide, inTimeperiod_missing_warns_once TimeperiodsCache.new
    { addr := 7, name := "workhours" } (by decide)⟩

/-- C6, counterexample: on the freshly constructed cache, with a list whose
only period is `24x7`, the query for the name `nonexistent` does not both
answer `true` and emit a warning: it emits no line at all. -/
theorem byName_nonexistent_counterexample :
    ¬ ((inTimeperiodByName TimeperiodsCache.new "nonexistent"
          [{ addr := 1, name := "24x7" }]).1 = true
        ∧ ∃ line ∈ (inTimeperiodByName TimeperiodsCache.new "nonexistent"
            [{ addr := 1, name := "24x7" }]).2, line.level = LogLevel.warning) := by
  decide

/-- C6, amended: on every cache state and every period list without a period
named `nonexistent`, the name-based query for `nonexistent` answers `true` and
emits no log line. -/
theorem byName_nonexistent_silent (s : TimeperiodsCache) (l : List timeperiod)
    (h : ∀ p ∈ l, p.name ≠ "nonexistent") :
    inTimeperiodByName s "nonexistent" l = (true, []) := by
  rw [inTimeperiodByName_eq, find?_name_eq_none "nonexistent" l h]

/-- Witness of the amended C6: a cache with one entry and a two-period list. -/
theorem byName_nonexistent_silent_witness :
    (∀ p ∈ [({ addr := 1, name := "24x7" } : timeperiod), { addr := 2, name := "workhours" }],
        p.name ≠ "nonexistent")
      ∧ inTimeperiodByName { _cache := [(1, false)], _last_update := 0 } "nonexistent"
          [{ addr := 1, name := "24x7" }, { addr := 2, name := "workhours" }] = (true, []) :=
  ⟨by decide, byName_nonexistent_silent { _cache := [(1, false)], _last_update := 0 }
    [{ addr := 1, name := "24x7" }, { addr := 2, name := "workhours" }] (by decide)⟩

/-- C7, the code at the failing input: the first refresh, one minute after
the epoch, sees the period `24x7` and caches it; the next refresh, one minute
later, sees an empty period list and emits no line at all, the entry of `24x7`
still being in the cache. -/
theorem update_list_emptied_logs_nothing :
    update TimeperiodsCache.new 60000000000 [{ addr := 1, name := "24x7" }] (fun _ _ => 0)
        = ({ _cache := [(1, true)], _last_update := 60000000000 },
           [{ level := LogLevel.informational,
              message := "TRANSICIÓN DE PERIODO DE TIEMPO: 24x7;-1;1" }])
      ∧ update { _cache := [(1, true)], _last_update := 60000000000 } 120000000000 []
          (fun _ _ => 0)
        = ({ _cache := [(1, true)], _last_update := 120000000000 }, []) := by
  decide

/-- C8, counterexample: `24x7`, cached inactive, is flipped by an `update` ten
ticks below `INT64_MAX`; a second `update` at second 100, inside the throttle
window that `now + 1min` closes, is not silent: the sum of the guard wraps
around and the call logs a further transition line, `24x7;1;0`. -/
theorem update_flip_overflow_counterexample :
    ¬ ((100000000000 : Int) < 9223372036854775797 + one_minute →
        (update
          (update { _cache := [(1, false)], _last_update := 0 } 9223372036854775797
            [{ addr := 1, name := "24x7" }] (fun t _ => if t < 1000 then 1 else 0)).1
          100000000000 [{ addr := 1, name := "24x7" }]
          (fun t _ => if t < 1000 then 1 else 0)).2 = []) := by
  decide

/-- C8, amended: in an `update(now)` outside the throttle window over a list
of pairwise distinct periods, the log is the concatenation, in list order, of
one block per listed period followed by the report about an empty cache; the
block of a period whose cached value differs from the value computed at `now`
is exactly one informational line, `name;1;0` from active to inactive and
`name;0;1` from inactive to active; the entry of that period is set to the
computed value; and, when `now + 1min` is a representable tick count, a
further `update` inside the new throttle window returns the object as it is
and emits no line. -/
theorem update_flip_logs_once (s : TimeperiodsCache) (now : time_point)
    (l : List timeperiod) (check : Evaluator)
    (hnow : s._last_update + one_minute ≤ now)
    (hd : (l.map timeperiod.addr).Nodup) :
    (update s now l check).2
        = l.flatMap (fun p => (visit check (to_time_t now) s._cache p).2)
          ++ emptyReport (update s now l check).1._cache (!Cache.empty s._cache)
      ∧ (∀ p ∈ l, ∀ old : Bool, Cache.find s._cache p.addr = some old →
          old ≠ decide (check (to_time_t now) p.addr = 0) →
          (visit check (to_time_t now) s._cache p).2
              = [{ level := LogLevel.informational,
                   message := "TRANSICIÓN DE PERIODO DE TIEMPO: " ++ p.name
                     ++ (if old then ";1;0" else ";0;1") }]
            ∧ Cache.find (update s now l check).1._cache p.addr
                = some (decide (check (to_time_t now) p.addr = 0)))
      ∧ (now + one_minute ≤ INT64_MAX →
          ∀ (T1 : time_point) (l1 : List timeperiod) (check1 : Evaluator),
          T1 < now + one_minute →
          update (update s now l check).1 T1 l1 check1 = ((update s now l check).1, [])) := by
  rw [update_of_le s now l check hnow]
  refine ⟨?_, ?_, ?_⟩
  · simp only
    rw [pass_lines_of_nodup check (to_time_t now) l hd s._cache]
  · intro p hp old hold hne
    refine ⟨?_, find_pass_of_mem check (to_time_t now) l s._cache p hp⟩
    have hflip : decide (check (to_time_t now) p.addr = 0) = !old := by
      cases old <;> cases hc : decide (check (to_time_t now) p.addr = 0) <;> simp_all
    simp only [visit, hold, hflip, logTransition, transitionMessage_flip]
    cases old <;> simp
  · intro hrep T1 l1 check1 hT1
    exact update_of_lt _ T1 l1 check1 hT1 hrep

/-- Witness of the amended C8: two distinct periods cached active and
inactive, both flipped by a refresh two minutes after the last one; a further
refresh thirty seconds later does nothing. -/
theorem update_flip_logs_once_witness :
    (0 : Int) + one_minute ≤ 120000000000
      ∧ ([({ addr := 1, name := "24x7" } : timeperiod),
          { addr := 2, name := "workhours" }].map timeperiod.addr).Nodup
      ∧ (update (update { _cache := [(2, false), (1, true)], _last_update := 0 }
          120000000000 [{ addr := 1, name := "24x7" }, { addr := 2, name := "workhours" }]
          (fun _ a => if a = 1 then 1 else 0)).1 150000000000
          [{ addr := 1, name := "24x7" }] (fun _ _ => 0)).2 = []
      ∧ (update { _cache := [(2, false), (1, true)], _last_update := 0 } 120000000000
          [{ addr := 1, name := "24x7" }, { addr := 2, name := "workhours" }]
          (fun _ a => if a = 1 then 1 else 0)).2
        = [{ level := LogLevel.informational,
             message := "TRANSICIÓN DE PERIODO DE TIEMPO: 24x7;1;0" },
           { level := LogLevel.informational,
             message := "TRANSICIÓN DE PERIODO DE TIEMPO: workhours;0;1" }]
      ∧ Cache.find (update { _cache := [(2, false), (1, true)], _last_update := 0 }
          120000000000 [{ addr := 1, name := "24x7" }, { addr := 2, name := "workhours" }]
          (fun _ a => if a = 1 then 1 else 0)).1._cache 1 = some false := by
  have h := update_flip_logs_once { _cache := [(2, false), (1, true)], _last_update := 0 }
    120000000000 [{ addr := 1, name := "24x7" }, { addr := 2, name := "workhours" }]
    (fun _ a => if a = 1 then 1 else 0) (by decide) (by decide)
  refine ⟨by decide, by decide, ?_, ?_, ?_⟩
  · rw [h.2.2 (by decide) 150000000000 [{ addr := 1, name := "24x7" }] (fun _ _ => 0)
      (by decide)]
  · rw [h.1]; decide
  · exact (h.2.1 { addr := 1, name := "24x7" } (by decide) true (by decide) (by decide)).2

/-- C9, counterexample: on the freshly constructed cache `update` at the
time point 0 does not create the entry of `24x7` and log `24x7;-1;1`: the call
falls inside the throttle window that starts at the epoch and does nothing. -/
theorem scenario_at_epoch_counterexample :
    ¬ (Cache.find (update TimeperiodsCache.new 0 [{ addr := 1, name := "24x7" }]
          (fun _ _ => 0)).1._cache 1 = some true
        ∧ (update TimeperiodsCache.new 0 [{ addr := 1, name := "24x7" }] (fun _ _ => 0)).2
            = [{ level := LogLevel.informational,
                 message := "TRANSICIÓN DE PERIODO DE TIEMPO: 24x7;-1;1" }]) := by
  decide

/-- C9, amended: on the freshly constructed cache, with the single period
`24x7` in the list and a start time `T0` at least one minute after the epoch,
`T0 + 90s` being a representable tick count:
`update(T0)` with the evaluator reporting active creates the entry and logs
`24x7;-1;1`, after which `inTimeperiod("24x7")` is true; `update(T0 + 30s)` does
nothing; `update(T0 + 90s)` with the evaluator reporting inactive logs
`24x7;1;0` and updates the entry, after which `inTimeperiod("24x7")` is false. -/
theorem scenario_24x7 (T0 : time_point) (a : Nat) (checkActive checkInactive : Evaluator)
    (hT0 : one_minute ≤ T0)
    (hrep : T0 + 90 * ticks_per_second ≤ INT64_MAX)
    (hActive : checkActive (to_time_t T0) a = 0)
    (hInactive : checkInactive (to_time_t (T0 + 90 * ticks_per_second)) a ≠ 0) :
    update TimeperiodsCache.new T0 [{ addr := a, name := "24x7" }] checkActive
        = ({ _cache := [(a, true)], _last_update := T0 },
           [{ level := LogLevel.informational,
              message := "TRANSICIÓN DE PERIODO DE TIEMPO: 24x7;-1;1" }])
      ∧ inTimeperiodByName { _cache := [(a, true)], _last_update := T0 } "24x7"
          [{ addr := a, name := "24x7" }] = (true, [])
      ∧ (∀ check : Evaluator,
          update { _cache := [(a, true)], _last_update := T0 } (T0 + 30 * ticks_per_second)
            [{ addr := a, name := "24x7" }] check
          = ({ _cache := [(a, true)], _last_update := T0 }, []))
      ∧ update { _cache := [(a, true)], _last_update := T0 } (T0 + 90 * ticks_per_second)
          [{ addr := a, name := "24x7" }] checkInactive
        = ({ _cache := [(a, false)], _last_update := T0 + 90 * ticks_per_second },
           [{ level := LogLevel.informational,
              message := "TRANSICIÓN DE PERIODO DE TIEMPO: 24x7;1;0" }])
      ∧ inTimeperiodByName
          { _cache := [(a, false)], _last_update := T0 + 90 * ticks_per_second } "24x7"
          [{ addr := a, name := "24x7" }] = (false, []) := by
  have h60 : one_minute = 60000000000 := by decide
  have htps : ticks_per_second = 1000000000 := by decide
  refine ⟨?_, ?_, ?_, ?_, ?_⟩
  · rw [update_of_le _ T0 _ checkActive (by show (0 : Int) + one_minute ≤ T0; linarith)]
    simp only [TimeperiodsCache.new, pass, visit, Cache.find, Cache.emplace, hActive,
      decide_True, emptyReport, Cache.empty, logTransition, boolToInt]
    simp only [transitionMessage, String.append_assoc]
    rfl
  · simp [inTimeperiodByName, inTimeperiod, Cache.find]
  · intro check
    exact update_of_lt _ _ _ check
      (by show T0 + 30 * ticks_per_second < T0 + one_minute; linarith)
      (by show T0 + one_minute ≤ INT64_MAX; linarith)
  · rw [update_of_le _ _ _ checkInactive
      (by show T0 + one_minute ≤ T0 + 90 * ticks_per_second; linarith)]
    simp only [pass, visit, Cache.find, Cache.assign, hInactive, decide_False, emptyReport,
      Cache.empty, logTransition, boolToInt]
    simp only [transitionMessage, String.append_assoc]
    rfl
  · simp [inTimeperiodByName, inTimeperiod, Cache.find]

/-- Witness of the amended C9: the scenario started two minutes after the
epoch, with an evaluator that reports active up to second 200 and inactive
afterwards. -/
theorem scenario_24x7_witness :
    update TimeperiodsCache.new 120000000000 [{ addr := 1, name := "24x7" }]
        (fun t _ => if t < 200 then 0 else 1)
        = ({ _cache := [(1, true)], _last_update := 120000000000 },
           [{ level := LogLevel.informational,
              message := "TRANSICIÓN DE PERIODO DE TIEMPO: 24x7;-1;1" }])
      ∧ inTimeperiodByName { _cache := [(1, true)], _last_update := 120000000000 } "24x7"
          [{ addr := 1, name := "24x7" }] = (true, [])
      ∧ (∀ check : Evaluator,
          update { _cache := [(1, true)], _last_update := 120000000000 }
            (120000000000 + 30 * ticks_per_second) [{ addr := 1, name := "24x7" }] check
          = ({ _cache := [(1, true)], _last_update := 120000000000 }, []))
      ∧ update { _cache := [(1, true)], _last_update := 120000000000 }
          (120000000000 + 90 * ticks_per_second) [{ addr := 1, name := "24x7" }]
          (fun t _ => if t < 200 then 0 else 1)
        = ({ _cache := [(1, false)],
             _last_update := 120000000000 + 90 * ticks_per_second },
           [{ level := LogLevel.informational,
              message := "TRANSICIÓN DE PERIODO DE TIEMPO: 24x7;1;0" }])
      ∧ inTimeperiodByName
          { _cache := [(1, false)], _last_update := 120000000000 + 90 * ticks_per_second }
          "24x7" [{ addr := 1, name := "24x7" }] = (false, []) :=
  scenario_24x7 120000000000 1 (fun t _ => if t < 200 then 0 else 1)
    (fun t _ => if t < 200 then 0 else 1) (by decide) (by decide) (by decide) (by decide)

/-- C10, counterexample: with `_last_update` ten ticks below `INT64_MAX` the
sum of the guard wraps around, `update` at second 100 runs, and `_last_update`
after the call is not at least what it was before. -/
theorem last_update_overflow_counterexample :
    ¬ ((9223372036854775797 : Int)
        ≤ (Call.run { _cache := [], _last_update := 9223372036854775797 }
            (Call.update 100000000000 [] (fun _ _ => 0))).1._last_update) := by
  decide

/-- C10, amended: from a state whose `_last_update + 1min` is a representable
tick count, `_last_update` does not move backwards. After any call (`update`
with any argument, `inTimeperiod` by handle or by name,
`logCurrentTimeperiods`) it is at least what it was before, and whenever
`update` changes it the new value is at least one minute later than the old
one. -/
theorem last_update_monotone (s : TimeperiodsCache) (c : Call)
    (hrep : s._last_update + one_minute ≤ INT64_MAX) :
    s._last_update ≤ (Call.run s c).1._last_update
      ∧ (∀ (now : time_point) (l : List timeperiod) (check : Evaluator),
          (update s now l check).1._last_update ≠ s._last_update →
          s._last_update + one_minute ≤ (update s now l check).1._last_update) := by
  have hupd : ∀ (now : time_point) (l : List timeperiod) (check : Evaluator),
      (update s now l check).1._last_update = s._last_update
        ∨ s._last_update + one_minute ≤ (update s now l check).1._last_update := by
    intro now l check
    by_cases h : now < s._last_update + one_minute
    · left; rw [update_of_lt s now l check h hrep]
    · right; rw [update_of_le s now l check (not_lt.mp h)]; exact not_lt.mp h
  have hpos := one_minute_pos
  constructor
  · cases c with
    | update now l check =>
      simp only [Call.run]
      rcases hupd now l check with h | h
      · exact le_of_eq h.symm
      · linarith
    | logCurrentTimeperiods wall l check => exact le_refl _
    | inTimeperiod tp => exact le_refl _
    | inTimeperiodByName n l => exact le_refl _
  · intro now l check hne
    rcases hupd now l check with h | h
    · exact absurd h hne
    · exact h

/-- Witness of the amended C10: a refresh ninety seconds after the last one
moves `_last_update` forward by ninety seconds. -/
theorem last_update_monotone_witness :
    (100000000000 : Int) + one_minute ≤ INT64_MAX
      ∧ (100000000000 : Int)
        ≤ (Call.run { _cache := [], _last_update := 100000000000 }
            (Call.update 190000000000 [] (fun _ _ => 0))).1._last_update
      ∧ (100000000000 : Int) + one_minute
        ≤ (update { _cache := [], _last_update := 100000000000 } 190000000000 []
            (fun _ _ => 0)).1._last_update :=
  ⟨by decide,
   (last_update_monotone { _cache := [], _last_update := 100000000000 }
      (Call.update 190000000000 [] (fun _ _ => 0)) (by decide)).1,
   (last_update_monotone { _cache := [], _last_update := 100000000000 }
      (Call.update 190000000000 [] (fun _ _ => 0)) (by decide)).2 190000000000 []
      (fun _ _ => 0) (by decide)⟩

/-- The query by handle emits at most one line, and only at warning level. -/
theorem inTimeperiod_lines (s : TimeperiodsCache) (tp : Option timeperiod) :
    (inTimeperiod s tp).2.length ≤ 1
      ∧ ∀ line ∈ (inTimeperiod s tp).2, line.level = LogLevel.warning := by
  cases tp with
  | none => simp [inTimeperiod]
  | some p =>
    cases h : Cache.find s._cache p.addr with
    | none => simp [inTimeperiod, h]
    | some v => simp [inTimeperiod, h]

/-- The query by name emits at most one line, and only at warning level. -/
theorem inTimeperiodByName_lines (s : TimeperiodsCache) (n : String) (l : List timeperiod) :
    (inTimeperiodByName s n l).2.length ≤ 1
      ∧ ∀ line ∈ (inTimeperiodByName s n l).2, line.level = LogLevel.warning := by
  rw [inTimeperiodByName_eq]
  cases l.find? (fun q => decide (n = q.name)) with
  | none => simp
  | some p => exact inTimeperiod_lines s (some p)

/-- A key that has an entry still has one after an iteration. -/
theorem find_visit_isSome (check : Evaluator) (t : time_t) (c : Cache) (tp : timeperiod)
    (a : Nat) (h : (Cache.find c a).isSome = true) :
    (Cache.find (visit check t c tp).1 a).isSome = true := by
  by_cases hta : tp.addr = a
  · subst hta; rw [find_visit_self]; rfl
  · rw [find_visit_other check t c tp a hta]; exact h

/-- A key that has an entry still has one after the loop. -/
theorem find_pass_isSome (check : Evaluator) (t : time_t) (l : List timeperiod) :
    ∀ (c : Cache) (a : Nat), (Cache.find c a).isSome = true →
      (Cache.find (pass check t c l).1 a).isSome = true := by
  induction l with
  | nil => intro c a h; simpa [pass] using h
  | cons tp rest ih =>
    intro c a h
    simp only [pass]
    exact ih _ a (find_visit_isSome check t c tp a h)

/-- An iteration on a period whose entry holds the computed value changes
nothing and logs nothing. -/
theorem visit_of_cached (check : Evaluator) (t : time_t) (c : Cache) (tp : timeperiod)
    (h : Cache.find c tp.addr = some (decide (check t tp.addr = 0))) :
    visit check t c tp = (c, []) := by
  simp [visit, h]

/-- The loop over periods whose entries all hold the computed value changes
nothing and logs nothing. -/
theorem pass_of_all_cached (check : Evaluator) (t : time_t) (c : Cache) (l : List timeperiod)
    (h : ∀ p ∈ l, Cache.find c p.addr = some (decide (check t p.addr = 0))) :
    pass check t c l = (c, []) := by
  induction l with
  | nil => rfl
  | cons tp rest ih =>
    simp only [pass]
    rw [visit_of_cached check t c tp (h tp (List.mem_cons_self _ _))]
    simp only
    rw [ih (fun p hp => h p (List.mem_cons_of_mem _ hp))]
    rfl

/-- A cache in which some key has an entry is not empty. -/
theorem empty_eq_false_of_find (c : Cache) (a : Nat) (v : Bool)
    (h : Cache.find c a = some v) : Cache.empty c = false := by
  cases c with
  | nil => simp [Cache.find] at h
  | cons e rest => rfl

/-- C11: `inTimeperiod`, by handle and by name, never changes the cache state:
for every state and every argument the entry mapping and `_last_update` after
the call are those before it, and besides the returned boolean the call emits
at most one log line, which is a warning. -/
theorem inTimeperiod_frame (s : TimeperiodsCache) :
    (∀ tp : Option timeperiod,
        (Call.run s (Call.inTimeperiod tp)).1._cache = s._cache
          ∧ (Call.run s (Call.inTimeperiod tp)).1._last_update = s._last_update
          ∧ (Call.run s (Call.inTimeperiod tp)).2 = (inTimeperiod s tp).2
          ∧ (inTimeperiod s tp).2.length ≤ 1
          ∧ ∀ line ∈ (inTimeperiod s tp).2, line.level = LogLevel.warning)
      ∧ (∀ (n : String) (l : List timeperiod),
        (Call.run s (Call.inTimeperiodByName n l)).1._cache = s._cache
          ∧ (Call.run s (Call.inTimeperiodByName n l)).1._last_update = s._last_update
          ∧ (Call.run s (Call.inTimeperiodByName n l)).2 = (inTimeperiodByName s n l).2
          ∧ (inTimeperiodByName s n l).2.length ≤ 1
          ∧ ∀ line ∈ (inTimeperiodByName s n l).2, line.level = LogLevel.warning) := by
  constructor
  · intro tp
    exact ⟨rfl, rfl, rfl, (inTimeperiod_lines s tp).1, (inTimeperiod_lines s tp).2⟩
  · intro n l
    exact ⟨rfl, rfl, rfl, (inTimeperiodByName_lines s n l).1, (inTimeperiodByName_lines s n l).2⟩

/-- C12: no operation deletes a cache entry, and an `update` leaves untouched
the entry of every cached period that is not in the current period list: the
key stays present with the same value, so `inTimeperiod` by handle keeps
answering with the outdated value of a period that has left the list. -/
theorem entries_never_deleted (s : TimeperiodsCache) (a : Nat) (v : Bool)
    (h : Cache.find s._cache a = some v) :
    (∀ c : Call, (Cache.find (Call.run s c).1._cache a).isSome = true)
      ∧ (∀ (now : time_point) (l : List timeperiod) (check : Evaluator),
          (∀ p ∈ l, p.addr ≠ a) →
          Cache.find (update s now l check).1._cache a = some v
            ∧ ∀ name : String,
                inTimeperiod (update s now l check).1 (some { addr := a, name := name })
                  = (v, [])) := by
  have hsome : (Cache.find s._cache a).isSome = true := by rw [h]; rfl
  constructor
  · intro c
    cases c with
    | update now l check =>
      simp only [Call.run]
      by_cases hlt : now < plus_one_minute s._last_update
      · rw [update_of_guard s now l check hlt]; exact hsome
      · rw [update_of_not_guard s now l check hlt]
        exact find_pass_isSome check (to_time_t now) l s._cache a hsome
    | logCurrentTimeperiods wall l check =>
      exact find_pass_isSome check (to_time_t wall) l s._cache a hsome
    | inTimeperiod tp => exact hsome
    | inTimeperiodByName n l => exact hsome
  · intro now l check hl
    have hfind : Cache.find (update s now l check).1._cache a = some v := by
      by_cases hlt : now < plus_one_minute s._last_update
      · rw [update_of_guard s now l check hlt]; exact h
      · rw [update_of_not_guard s now l check hlt]
        simp only
        rw [find_pass_of_not_mem check (to_time_t now) l s._cache a hl]
        exact h
    refine ⟨hfind, ?_⟩
    intro name
    simp [inTimeperiod, hfind]

/-- Witness of C12: the period at address 1, cached inactive, has left the
list when the next refresh comes and is still answered as inactive. -/
theorem entries_never_deleted_witness :
    Cache.find [(2, true), (1, false)] 1 = some false
      ∧ (Cache.find (Call.run { _cache := [(2, true), (1, false)], _last_update := 0 }
          (Call.logCurrentTimeperiods 5 [{ addr := 1, name := "24x7" }]
            (fun _ _ => 0))).1._cache 1).isSome = true
      ∧ Cache.find (update { _cache := [(2, true), (1, false)], _last_update := 0 }
          120000000000 [{ addr := 2, name := "workhours" }] (fun _ _ => 0)).1._cache 1
          = some false
      ∧ inTimeperiod (update { _cache := [(2, true), (1, false)], _last_update := 0 }
          120000000000 [{ addr := 2, name := "workhours" }] (fun _ _ => 0)).1
          (some { addr := 1, name := "24x7" }) = (false, []) :=
  ⟨by decide,
   (entries_never_deleted { _cache := [(2, true), (1, false)], _last_update := 0 } 1 false
      (by decide)).1 (Call.logCurrentTimeperiods 5 [{ addr := 1, name := "24x7" }]
        (fun _ _ => 0)),
   ((entries_never_deleted { _cache := [(2, true), (1, false)], _last_update := 0 } 1 false
      (by decide)).2 120000000000 [{ addr := 2, name := "workhours" }] (fun _ _ => 0)
      (by decide)).1,
   ((entries_never_deleted { _cache := [(2, true), (1, false)], _last_update := 0 } 1 false
      (by decide)).2 120000000000 [{ addr := 2, name := "workhours" }] (fun _ _ => 0)
      (by decide)).2 "24x7"⟩

/-- C14: when every period of a non-empty period list already has a cache
entry equal to the value computed at `now`, an `update(now)` outside the
throttle window emits no log line and leaves the entry mapping as it is; the
only change of state is `_last_update := now`. -/
theorem update_all_match (s : TimeperiodsCache) (now : time_point) (l : List timeperiod)
    (check : Evaluator) (hne : l ≠ [])
    (hnow : s._last_update + one_minute ≤ now)
    (hall : ∀ p ∈ l,
      Cache.find s._cache p.addr = some (decide (check (to_time_t now) p.addr = 0))) :
    update s now l check = ({ _cache := s._cache, _last_update := now }, []) := by
  rw [update_of_le s now l check hnow,
    pass_of_all_cached check (to_time_t now) s._cache l hall]
  obtain ⟨p, hp⟩ := List.exists_mem_of_ne_nil l hne
  have hempty := empty_eq_false_of_find s._cache p.addr _ (hall p hp)
  simp [emptyReport, hempty]

/-- Witness of C14: two periods cached active and inactive, computed active
and inactive again two minutes after the last refresh. -/
theorem update_all_match_witness :
    [({ addr := 1, name := "24x7" } : timeperiod), { addr := 2, name := "workhours" }] ≠ []
      ∧ (0 : Int) + one_minute ≤ 120000000000
      ∧ update { _cache := [(2, false), (1, true)], _last_update := 0 } 120000000000
          [{ addr := 1, name := "24x7" }, { addr := 2, name := "workhours" }]
          (fun _ a => if a = 1 then 0 else 1)
        = ({ _cache := [(2, false), (1, true)], _last_update := 120000000000 }, []) :=
  ⟨by decide, by decide,
   update_all_match { _cache := [(2, false), (1, true)], _last_update := 0 } 120000000000
    [{ addr := 1, name := "24x7" }, { addr := 2, name := "workhours" }]
    (fun _ a => if a = 1 then 0 else 1) (by decide) (by decide) (by decide)⟩

/-- C16: an `update(now)` outside the throttle window, with an empty period
list and an empty cache, emits exactly one line, the debug-level diagnostic
that no periods are defined, and so no informational or warning line; the
cache stays empty and `_last_update` becomes `now`. -/
theorem update_empty_on_empty (s : TimeperiodsCache) (now : time_point) (check : Evaluator)
    (hc : s._cache = []) (hnow : s._last_update + one_minute ≤ now) :
    update s now [] check
      = ({ _cache := [], _last_update := now },
         [{ level := LogLevel.debug,
            message :=
              "Caché de periodos de tiempo actualizada, pero no hay periodos definidos" }]) := by
  rw [update_of_le s now [] check hnow, hc]
  rfl

/-- Witness of C16: the freshly constructed cache refreshed one minute after
the epoch while no period is defined. -/
theorem update_empty_on_empty_witness :
    TimeperiodsCache.new._cache = []
      ∧ TimeperiodsCache.new._last_update + one_minute ≤ 60000000000
      ∧ update TimeperiodsCache.new 60000000000 [] (fun _ _ => 0)
        = ({ _cache := [], _last_update := 60000000000 },
           [{ level := LogLevel.debug,
              message :=
                "Caché de periodos de tiempo actualizada, pero no hay periodos definidos" }]) :=
  ⟨rfl, by decide,
   update_empty_on_empty TimeperiodsCache.new 60000000000 (fun _ _ => 0) rfl (by decide)⟩

/-- The query by name skips the periods that bear another name. -/
theorem inTimeperiodByName_append (s : TimeperiodsCache) (n : String)
    (pre rest : List timeperiod) (h : ∀ q ∈ pre, q.name ≠ n) :
    inTimeperiodByName s n (pre ++ rest) = inTimeperiodByName s n rest := by
  induction pre with
  | nil => rfl
  | cons q tl ih =>
    have hq : ¬ n = q.name := fun he => h q (List.mem_cons_self _ _) he.symm
    simp only [List.cons_append, inTimeperiodByName, hq, if_false]
    exact ih (fun r hr => h r (List.mem_cons_of_mem _ hr))

/-- C19: the name-based `inTimeperiod(name)` resolves the name against the
period list it is given, not against the cache: it equals `inTimeperiod(h)` for
the handle `h` of the first period in list order that bears the name; when no
listed period bears the name it answers `true`, whatever the cache holds; so
the cached value `false` of a period that has left the list, still returned
by handle, is not returned by name. -/
theorem byName_resolves_against_list (s : TimeperiodsCache) (n : String) :
    (∀ (pre : List timeperiod) (p : timeperiod) (post : List timeperiod),
        (∀ q ∈ pre, q.name ≠ n) → p.name = n →
        inTimeperiodByName s n (pre ++ p :: post) = inTimeperiod s (some p))
      ∧ (∀ l : List timeperiod, (∀ q ∈ l, q.name ≠ n) →
          inTimeperiodByName s n l = (true, []))
      ∧ (∀ (l : List timeperiod) (a : Nat), (∀ q ∈ l, q.name ≠ n) →
          Cache.find s._cache a = some false →
          inTimeperiod s (some { addr := a, name := n }) = (false, [])
            ∧ inTimeperiodByName s n l = (true, [])) := by
  have hnone : ∀ l : List timeperiod, (∀ q ∈ l, q.name ≠ n) →
      inTimeperiodByName s n l = (true, []) := by
    intro l hl
    rw [inTimeperiodByName_eq, find?_name_eq_none n l hl]
  refine ⟨?_, hnone, ?_⟩
  · intro pre p post hpre hp
    rw [inTimeperiodByName_append s n pre (p :: post) hpre]
    simp [inTimeperiodByName, hp]
  · intro l a hl hfind
    refine ⟨?_, hnone l hl⟩
    simp [inTimeperiod, hfind]

/-- Witness of C19: `workhours`, cached inactive at address 2, is first
resolved through the list and then, once it has left the list, answered as
active by name while the handle still answers inactive. -/
theorem byName_resolves_against_list_witness :
    inTimeperiodByName { _cache := [(2, false), (1, true)], _last_update := 0 } "workhours"
        ([{ addr := 1, name := "24x7" }] ++ { addr := 2, name := "workhours" } :: [])
        = inTimeperiod { _cache := [(2, false), (1, true)], _last_update := 0 }
            (some { addr := 2, name := "workhours" })
      ∧ inTimeperiod { _cache := [(2, false), (1, true)], _last_update := 0 }
          (some { addr := 2, name := "workhours" }) = (false, [])
      ∧ inTimeperiodByName { _cache := [(2, false), (1, true)], _last_update := 0 }
          "workhours" [{ addr := 1, name := "24x7" }] = (true, []) :=
  ⟨(byName_resolves_against_list { _cache := [(2, false), (1, true)], _last_update := 0 }
      "workhours").1 [{ addr := 1, name := "24x7" }] { addr := 2, name := "workhours" } []
      (by decide) rfl,
   ((byName_resolves_against_list { _cache := [(2, false), (1, true)], _last_update := 0 }
      "workhours").2.2 [{ addr := 1, name := "24x7" }] 2 (by decide) (by decide)).1,
   ((byName_resolves_against_list { _cache := [(2, false), (1, true)], _last_update := 0 }
      "workhours").2.2 [{ addr := 1, name := "24x7" }] 2 (by decide) (by decide)).2⟩

/-- The lines of an iteration are the lines of its calls of `logTransition`. -/
theorem visit_lines_eq (check : Evaluator) (t : time_t) (c : Cache) (tp : timeperiod) :
    (visit check t c tp).2 = (visitTransitions check t c tp).map Transition.line := by
  cases h : Cache.find c tp.addr with
  | none => simp [visit, visitTransitions, h, Transition.line]
  | some old =>
    by_cases hd : old = decide (check t tp.addr = 0)
    · simp [visit, visitTransitions, h, hd.symm]
    · simp [visit, visitTransitions, h, hd, Transition.line]

/-- The lines of the loop are the lines of its calls of `logTransition`. -/
theorem pass_lines_eq (check : Evaluator) (t : time_t) (l : List timeperiod) :
    ∀ c : Cache, (pass check t c l).2 = (passTransitions check t c l).map Transition.line := by
  induction l with
  | nil => intro c; rfl
  | cons tp rest ih =>
    intro c
    simp only [pass, passTransitions, List.map_append]
    rw [visit_lines_eq, ih]

/-- A transition line is informational. -/
theorem line_level (e : Transition) : e.line.level = LogLevel.informational := rfl

/-- No transition line carries the text about removed periods. -/
theorem transitionMessage_ne_removed (n : String) (f t : Int) :
    transitionMessage n f t ≠ removedMessage := by
  intro h
  have h2 := congrArg String.data h
  simp [transitionMessage, removedMessage, String.data_append] at h2

/-- No transition line carries the text about no periods being defined. -/
theorem transitionMessage_ne_noPeriods (n : String) (f t : Int) :
    transitionMessage n f t ≠ noPeriodsMessage := by
  intro h
  have h2 := congrArg String.data h
  simp [transitionMessage, noPeriodsMessage, String.data_append] at h2

/-- A transition line that starts from a cached value is not a line that
starts from `-1` for the same name. -/
theorem transitionMessage_ne_unknown (n : String) (old : Bool) (t1 t2 : Int) :
    transitionMessage n (boolToInt old) t1 ≠ transitionMessage n (-1) t2 := by
  intro h
  have h2 := congrArg String.data h
  have e1 : toString (1 : Int) = "1" := rfl
  have e0 : toString (0 : Int) = "0" := rfl
  have em : toString (-1 : Int) = "-1" := rfl
  cases old <;>
    simp [transitionMessage, boolToInt, String.data_append, e1, e0, em] at h2

/-- Every line of the loop is informational and carries neither of the two
texts about an empty cache. -/
theorem pass_lines_spec (check : Evaluator) (t : time_t) (c : Cache) (l : List timeperiod) :
    ∀ line ∈ (pass check t c l).2,
      line.level = LogLevel.informational ∧ line.message ≠ removedMessage
        ∧ line.message ≠ noPeriodsMessage := by
  intro line hline
  rw [pass_lines_eq, List.mem_map] at hline
  obtain ⟨e, _, he⟩ := hline
  subst he
  exact ⟨rfl, transitionMessage_ne_removed _ _ _, transitionMessage_ne_noPeriods _ _ _⟩

/-- The loop never empties the cache. -/
theorem pass_empty_imp (check : Evaluator) (t : time_t) (c : Cache) (l : List timeperiod)
    (h : Cache.empty (pass check t c l).1 = true) : Cache.empty c = true := by
  cases c with
  | nil => rfl
  | cons e rest =>
    obtain ⟨k, v⟩ := e
    have hk : (Cache.find ((k, v) :: rest) k).isSome = true := by simp [Cache.find]
    have hp := find_pass_isSome check t l _ k hk
    rw [(Cache.empty_eq_true_iff _).mp h] at hp
    simp [Cache.find] at hp

/-- No call empties the cache. -/
theorem run_empty_imp (s : TimeperiodsCache) (c : Call)
    (h : Cache.empty (Call.run s c).1._cache = true) : Cache.empty s._cache = true := by
  cases c with
  | update now l check =>
    simp only [Call.run] at h
    by_cases hlt : now < plus_one_minute s._last_update
    · rw [update_of_guard s now l check hlt] at h; exact h
    · rw [update_of_not_guard s now l check hlt] at h
      exact pass_empty_imp check (to_time_t now) s._cache l h
  | logCurrentTimeperiods wall l check =>
    exact pass_empty_imp check (to_time_t wall) s._cache l h
  | inTimeperiod tp => exact h
  | inTimeperiodByName n l => exact h

/-- No sequence of calls empties the cache. -/
theorem runAll_empty_imp (cs : List Call) :
    ∀ s : TimeperiodsCache, Cache.empty (runAll s cs)._cache = true →
      Cache.empty s._cache = true := by
  induction cs with
  | nil => intro s h; exact h
  | cons c rest ih =>
    intro s h
    exact run_empty_imp s c (ih _ h)

/-- C17: in every state, so in every state reachable from the freshly
constructed cache by `update`, `logCurrentTimeperiods` and `inTimeperiod` calls
with any period lists, `update` never emits the informational line that all
periods were removed, because the cache is empty after the loop only if it was
empty before it; and once the cache holds an entry, no later `update` emits
the debug-level diagnostic that no periods are defined. -/
theorem removed_message_never_emitted (s : TimeperiodsCache) (now : time_point)
    (l : List timeperiod) (check : Evaluator) :
    (Cache.empty (update s now l check).1._cache = true → Cache.empty s._cache = true)
      ∧ (∀ line ∈ (update s now l check).2,
          line.message ≠ "Se han eliminado todos los periodos de tiempo de la configuración")
      ∧ (Cache.empty s._cache = false → ∀ cs : List Call,
          Cache.empty (runAll s cs)._cache = false
            ∧ ∀ line ∈ (update (runAll s cs) now l check).2,
                line.level ≠ LogLevel.debug
                  ∧ line.message
                    ≠ "Caché de periodos de tiempo actualizada, pero no hay periodos definidos") := by
  have hlines : ∀ (s1 : TimeperiodsCache), ∀ line ∈ (update s1 now l check).2,
      line.message ≠ removedMessage
        ∧ (Cache.empty s1._cache = false →
            line.level = LogLevel.informational ∧ line.message ≠ noPeriodsMessage) := by
    intro s1 line hline
    by_cases hlt : now < plus_one_minute s1._last_update
    · rw [update_of_guard s1 now l check hlt] at hline; cases hline
    · rw [update_of_not_guard s1 now l check hlt] at hline
      simp only [List.mem_append] at hline
      rcases hline with hp | he
      · have := pass_lines_spec check (to_time_t now) s1._cache l line hp
        exact ⟨this.2.1, fun _ => ⟨this.1, this.2.2⟩⟩
      · cases hb : Cache.empty s1._cache with
        | true =>
          simp only [emptyReport, hb, Bool.not_true, Bool.and_false] at he
          refine ⟨?_, fun h => by cases h⟩
          split at he
          · rename_i hfalse; cases hfalse
          · split at he
            · simp only [List.mem_singleton] at he
              subst he
              decide
            · cases he
        | false =>
          have hne : Cache.empty (pass check (to_time_t now) s1._cache l).1 = false := by
            cases hq : Cache.empty (pass check (to_time_t now) s1._cache l).1 with
            | false => rfl
            | true =>
              have := pass_empty_imp check (to_time_t now) s1._cache l hq
              rw [hb] at this; cases this
          simp [emptyReport, hne] at he
  refine ⟨?_, fun line hline => (hlines s line hline).1, ?_⟩
  · intro h
    exact run_empty_imp s (Call.update now l check) h
  · intro hs cs
    have hcs : Cache.empty (runAll s cs)._cache = false := by
      cases hq : Cache.empty (runAll s cs)._cache with
      | false => rfl
      | true =>
        have := runAll_empty_imp cs s hq
        rw [hs] at this; cases this
    refine ⟨hcs, ?_⟩
    intro line hline
    have h2 := (hlines (runAll s cs) line hline).2 hcs
    refine ⟨?_, h2.2⟩
    rw [h2.1]
    decide

/-- Witness of C17: the cache that learnt `24x7` after the epoch is refreshed
with an empty period list: it stays non-empty and the refresh emits no line. -/
theorem removed_message_never_emitted_witness :
    Cache.empty (runAll TimeperiodsCache.new
        [Call.update 60000000000 [{ addr := 1, name := "24x7" }] (fun _ _ => 0)])._cache = false
      ∧ Cache.empty (runAll (runAll TimeperiodsCache.new
          [Call.update 60000000000 [{ addr := 1, name := "24x7" }] (fun _ _ => 0)])
          [Call.inTimeperiod none])._cache = false
      ∧ ∀ line ∈ (update (runAll (runAll TimeperiodsCache.new
          [Call.update 60000000000 [{ addr := 1, name := "24x7" }] (fun _ _ => 0)])
          [Call.inTimeperiod none]) 120000000000 [] (fun _ _ => 0)).2,
          line.level ≠ LogLevel.debug
            ∧ line.message
              ≠ "Caché de periodos de tiempo actualizada, pero no hay periodos definidos" :=
  ⟨by decide,
   (removed_message_never_emitted (runAll TimeperiodsCache.new
      [Call.update 60000000000 [{ addr := 1, name := "24x7" }] (fun _ _ => 0)])
      120000000000 [] (fun _ _ => 0)).2.2 (by decide) [Call.inTimeperiod none]⟩

/-- The loop of `logCurrentTimeperiods` is the loop of `update`. -/
theorem logCurrentTimeperiodsLoop_eq_pass (check : Evaluator) (t : time_t)
    (l : List timeperiod) :
    ∀ c : Cache, logCurrentTimeperiodsLoop check t c l = pass check t c l := by
  induction l with
  | nil => intro c; rfl
  | cons tp rest ih =>
    intro c
    cases h : Cache.find c tp.addr with
    | none => simp [logCurrentTimeperiodsLoop, pass, visit, h, ih]
    | some old =>
      by_cases hd : old = decide (check t tp.addr = 0)
      · simp [logCurrentTimeperiodsLoop, pass, visit, h, hd.symm, ih]
      · simp [logCurrentTimeperiodsLoop, pass, visit, h, hd, ih]

/-- C18: with the wall-clock reading taken as a parameter `t`,
`logCurrentTimeperiods` at `t` performs the per-period loop of `update(t)`:
whatever `_last_update` is (it is never throttled) it yields the entry mapping
and the lines of that loop and leaves `_last_update` as it was; an `update(t)`
outside the throttle window, from the same state and period list, yields the
same entry mapping and the same lines, followed by its report about an empty
cache; and no line of `logCurrentTimeperiods` is such a report. -/
theorem logCurrentTimeperiods_same_pass (s : TimeperiodsCache) (t : time_point)
    (l : List timeperiod) (check : Evaluator) :
    logCurrentTimeperiodsInline s t l check = logCurrentTimeperiods s t l check
      ∧ logCurrentTimeperiodsInline s t l check
          = ({ _cache := (pass check (to_time_t t) s._cache l).1,
               _last_update := s._last_update },
             (pass check (to_time_t t) s._cache l).2)
      ∧ (s._last_update + one_minute ≤ t →
          (update s t l check).1._cache = (logCurrentTimeperiodsInline s t l check).1._cache
            ∧ (update s t l check).1._last_update = t
            ∧ (update s t l check).2
                = (logCurrentTimeperiodsInline s t l check).2
                  ++ emptyReport (update s t l check).1._cache (!Cache.empty s._cache))
      ∧ (logCurrentTimeperiodsInline s t l check).1._last_update = s._last_update
      ∧ (∀ line ∈ (logCurrentTimeperiodsInline s t l check).2,
          line.level = LogLevel.informational
            ∧ line.message
              ≠ "Se han eliminado todos los periodos de tiempo de la configuración"
            ∧ line.message
              ≠ "Caché de periodos de tiempo actualizada, pero no hay periodos definidos") := by
  have hinline : logCurrentTimeperiodsInline s t l check
      = ({ _cache := (pass check (to_time_t t) s._cache l).1,
           _last_update := s._last_update },
         (pass check (to_time_t t) s._cache l).2) := by
    simp only [logCurrentTimeperiodsInline, logCurrentTimeperiodsLoop_eq_pass]
  refine ⟨?_, hinline, ?_, ?_, ?_⟩
  · rw [hinline]; rfl
  · intro hnow
    rw [hinline, update_of_le s t l check hnow]
    exact ⟨rfl, rfl, rfl⟩
  · rw [hinline]
  · rw [hinline]
    exact pass_lines_spec check (to_time_t t) s._cache l

/-- Witness of C18: a cache last refreshed at second 100, read thirty seconds
later by `logCurrentTimeperiods` and ninety seconds later by `update`. -/
theorem logCurrentTimeperiods_same_pass_witness :
    logCurrentTimeperiodsInline { _cache := [(1, true)], _last_update := 100000000000 }
        130000000000 [{ addr := 1, name := "24x7" }, { addr := 2, name := "workhours" }]
        (fun _ _ => 1)
        = ({ _cache := [(2, false), (1, false)], _last_update := 100000000000 },
           [{ level := LogLevel.informational,
              message := "TRANSICIÓN DE PERIODO DE TIEMPO: 24x7;1;0" },
            { level := LogLevel.informational,
              message := "TRANSICIÓN DE PERIODO DE TIEMPO: workhours;-1;0" }])
      ∧ (update { _cache := [(1, true)], _last_update := 100000000000 } 190000000000
          [{ addr := 1, name := "24x7" }, { addr := 2, name := "workhours" }]
          (fun _ _ => 1)).1._cache
        = (logCurrentTimeperiodsInline { _cache := [(1, true)], _last_update := 100000000000 }
            190000000000 [{ addr := 1, name := "24x7" }, { addr := 2, name := "workhours" }]
            (fun _ _ => 1)).1._cache :=
  ⟨(logCurrentTimeperiods_same_pass { _cache := [(1, true)], _last_update := 100000000000 }
      130000000000 [{ addr := 1, name := "24x7" }, { addr := 2, name := "workhours" }]
      (fun _ _ => 1)).2.1.trans (by decide),
   ((logCurrentTimeperiods_same_pass { _cache := [(1, true)], _last_update := 100000000000 }
      190000000000 [{ addr := 1, name := "24x7" }, { addr := 2, name := "workhours" }]
      (fun _ _ => 1)).2.2.1 (by decide)).1⟩

/-- The loop over a concatenation is the loop over the first part followed by
the loop over the second part. -/
theorem pass_append (check : Evaluator) (t : time_t) (l1 l2 : List timeperiod) :
    ∀ c : Cache, pass check t c (l1 ++ l2)
      = ((pass check t (pass check t c l1).1 l2).1,
         (pass check t c l1).2 ++ (pass check t (pass check t c l1).1 l2).2) := by
  induction l1 with
  | nil => intro c; simp [pass]
  | cons tp rest ih =>
    intro c
    have hcons : (tp :: rest) ++ l2 = tp :: (rest ++ l2) := rfl
    rw [hcons]
    simp only [pass]
    rw [ih]
    simp only [List.append_assoc]

/-- C13: in an `update(now)` outside the throttle window the log is made of
the lines of the iterations in list order, then the report about an empty
cache. An iteration that finds no entry for its period, as the first iteration
on a period without entry at the start of the call does, emits exactly one
line, `name;-1;x` with `x` being 1 if the period is computed active at `now`
and 0 otherwise, and leaves the entry created with that value; an iteration
that finds an entry emits no line from `-1` for its period. Here `c0` is the
cache at the point of the loop where `p` is visited. -/
theorem update_first_sighting (s : TimeperiodsCache) (now : time_point)
    (pre : List timeperiod) (p : timeperiod) (post : List timeperiod) (check : Evaluator)
    (c0 : Cache)
    (hnow : s._last_update + one_minute ≤ now)
    (hc0 : c0 = (pass check (to_time_t now) s._cache pre).1) :
    (update s now (pre ++ p :: post) check).2
        = (pass check (to_time_t now) s._cache pre).2
          ++ ((visit check (to_time_t now) c0 p).2
          ++ ((pass check (to_time_t now) (visit check (to_time_t now) c0 p).1 post).2
          ++ emptyReport (update s now (pre ++ p :: post) check).1._cache
              (!Cache.empty s._cache)))
      ∧ (Cache.find s._cache p.addr = none → (∀ q ∈ pre, q.addr ≠ p.addr) →
          Cache.find c0 p.addr = none)
      ∧ (Cache.find c0 p.addr = none →
          (visit check (to_time_t now) c0 p).2
              = [{ level := LogLevel.informational,
                   message := "TRANSICIÓN DE PERIODO DE TIEMPO: " ++ p.name
                     ++ (if check (to_time_t now) p.addr = 0 then ";-1;1" else ";-1;0") }]
            ∧ Cache.find (visit check (to_time_t now) c0 p).1 p.addr
                = some (decide (check (to_time_t now) p.addr = 0))
            ∧ Cache.find (update s now (pre ++ p :: post) check).1._cache p.addr
                = some (decide (check (to_time_t now) p.addr = 0)))
      ∧ (∀ old : Bool, Cache.find c0 p.addr = some old →
          ∀ line ∈ (visit check (to_time_t now) c0 p).2, ∀ x : Int,
            line.message ≠ transitionMessage p.name (-1) x) := by
  subst hc0
  refine ⟨?_, ?_, ?_, ?_⟩
  · rw [update_of_le s now _ check hnow]
    simp only [pass_append, pass, List.append_assoc]
  · intro hnone hpre
    rw [find_pass_of_not_mem check (to_time_t now) pre s._cache p.addr hpre]
    exact hnone
  · intro hnone
    refine ⟨?_, find_visit_self _ _ _ _, ?_⟩
    · by_cases hx : check (to_time_t now) p.addr = 0
      · simp only [visit, hnone, hx, decide_True, logTransition, transitionMessage, boolToInt,
          if_true, String.append_assoc]
        rfl
      · simp only [visit, hnone, hx, decide_False, logTransition, transitionMessage, boolToInt,
          if_false, String.append_assoc]
        rfl
    · rw [update_of_le s now _ check hnow]
      exact find_pass_of_mem check (to_time_t now) _ s._cache p (by simp)
  · intro old hold line hline x
    by_cases hd : old = decide (check (to_time_t now) p.addr = 0)
    · simp [visit, hold, hd.symm] at hline
    · simp only [visit, hold] at hline
      have hne : (old != decide (check (to_time_t now) p.addr = 0)) = true := by
        simpa using hd
      simp only [hne, if_true, List.mem_singleton] at hline
      subst hline
      exact transitionMessage_ne_unknown p.name old _ x

/-- Witness of C13: `workhours`, without entry, is listed after the cached
`24x7` and is computed inactive two minutes after the last refresh. -/
theorem update_first_sighting_witness :
    (0 : Int) + one_minute ≤ 120000000000
      ∧ (update { _cache := [(1, true)], _last_update := 0 } 120000000000
          ([{ addr := 1, name := "24x7" }] ++ { addr := 2, name := "workhours" } :: [])
          (fun _ a => if a = 1 then 0 else 1)).2
        = [{ level := LogLevel.informational,
             message := "TRANSICIÓN DE PERIODO DE TIEMPO: workhours;-1;0" }]
      ∧ Cache.find (update { _cache := [(1, true)], _last_update := 0 } 120000000000
          ([{ addr := 1, name := "24x7" }] ++ { addr := 2, name := "workhours" } :: [])
          (fun _ a => if a = 1 then 0 else 1)).1._cache 2 = some false := by
  have h := update_first_sighting { _cache := [(1, true)], _last_update := 0 } 120000000000
    [{ addr := 1, name := "24x7" }] { addr := 2, name := "workhours" } []
    (fun _ a => if a = 1 then 0 else 1) [(1, true)] (by decide) (by decide)
  refine ⟨by decide, ?_, ?_⟩
  · rw [h.1]; decide
  · exact (h.2.2.1 (by decide)).2.2

/-- A chain followed by a chain that starts where the first one ends is a chain. -/
theorem isChainFrom_append (l1 l2 : List Transition) :
    ∀ cur : Int, isChainFrom cur (l1 ++ l2)
      = (isChainFrom cur l1 && isChainFrom (chainEnd cur l1) l2) := by
  induction l1 with
  | nil => intro cur; simp [isChainFrom, chainEnd]
  | cons e rest ih =>
    intro cur
    have hcons : (e :: rest) ++ l2 = e :: (rest ++ l2) := rfl
    rw [hcons]
    simp only [isChainFrom, chainEnd, ih, Bool.and_assoc]

/-- The end of a concatenation is the end of its second part. -/
theorem chainEnd_append (l1 l2 : List Transition) :
    ∀ cur : Int, chainEnd cur (l1 ++ l2) = chainEnd (chainEnd cur l1) l2 := by
  induction l1 with
  | nil => intro cur; rfl
  | cons e rest ih =>
    intro cur
    have hcons : (e :: rest) ++ l2 = e :: (rest ++ l2) := rfl
    rw [hcons]
    simp only [chainEnd, ih]

/-- The transitions that one iteration logs for a key continue the chain of
that key from its state before the iteration to its state after it. -/
theorem visit_chain (check : Evaluator) (t : time_t) (c : Cache) (tp : timeperiod) (a : Nat) :
    isChainFrom (stateOf c a)
        ((visitTransitions check t c tp).filter (fun e => decide (e.addr = a))) = true
      ∧ chainEnd (stateOf c a)
          ((visitTransitions check t c tp).filter (fun e => decide (e.addr = a)))
        = stateOf (visit check t c tp).1 a := by
  by_cases hta : tp.addr = a
  · subst hta
    have hself := find_visit_self check t c tp
    cases h : Cache.find c tp.addr with
    | none =>
      cases hx : decide (check t tp.addr = 0) <;>
        simp [visitTransitions, h, hx, stateOf, hself, isChainFrom, chainEnd, boolToInt]
    | some old =>
      cases hx : decide (check t tp.addr = 0) <;> cases old <;>
        simp [visitTransitions, h, hx, stateOf, hself, isChainFrom, chainEnd, boolToInt]
  · have hother := find_visit_other check t c tp a hta
    have hfilter : (visitTransitions check t c tp).filter (fun e => decide (e.addr = a)) = [] := by
      cases h : Cache.find c tp.addr with
      | none => simp [visitTransitions, h, hta]
      | some old =>
        by_cases hd : old = decide (check t tp.addr = 0)
        · simp [visitTransitions, h, hd.symm]
        · simp [visitTransitions, h, hd, hta]
    rw [hfilter]
    simp [isChainFrom, chainEnd, stateOf, hother]

/-- The transitions that the loop logs for a key continue the chain of that
key from its state before the loop to its state after it. -/
theorem pass_chain (check : Evaluator) (t : time_t) (a : Nat) (l : List timeperiod) :
    ∀ c : Cache,
      isChainFrom (stateOf c a)
          ((passTransitions check t c l).filter (fun e => decide (e.addr = a))) = true
        ∧ chainEnd (stateOf c a)
            ((passTransitions check t c l).filter (fun e => decide (e.addr = a)))
          = stateOf (pass check t c l).1 a := by
  induction l with
  | nil => intro c; simp [passTransitions, pass, isChainFrom, chainEnd]
  | cons tp rest ih =>
    intro c
    have hv := visit_chain check t c tp a
    have hr := ih (visit check t c tp).1
    simp only [passTransitions, pass, List.filter_append, isChainFrom_append, chainEnd_append]
    rw [hv.1, hv.2, hr.1, hr.2]
    exact ⟨rfl, rfl⟩

/-- The transitions that a call logs for a key continue the chain of that key
from its state before the call to its state after it. -/
theorem call_chain (s : TimeperiodsCache) (c : Call) (a : Nat) :
    isChainFrom (stateOf s._cache a)
        ((Call.transitions s c).filter (fun e => decide (e.addr = a))) = true
      ∧ chainEnd (stateOf s._cache a)
          ((Call.transitions s c).filter (fun e => decide (e.addr = a)))
        = stateOf (Call.run s c).1._cache a := by
  cases c with
  | update now l check =>
    by_cases hlt : now < plus_one_minute s._last_update
    · simp [Call.transitions, Call.run, hlt, update_of_guard s now l check hlt, isChainFrom,
        chainEnd]
    · simp only [Call.transitions, Call.run, hlt, if_false,
        update_of_not_guard s now l check hlt]
      exact pass_chain check (to_time_t now) a l s._cache
  | logCurrentTimeperiods wall l check =>
    exact pass_chain check (to_time_t wall) a l s._cache
  | inTimeperiod tp => simp [Call.transitions, Call.run, isChainFrom, chainEnd]
  | inTimeperiodByName n l => simp [Call.transitions, Call.run, isChainFrom, chainEnd]

/-- The transitions that a sequence of calls logs for a key continue the chain
of that key from its state before the sequence to its state after it. -/
theorem run_chain (a : Nat) (cs : List Call) :
    ∀ s : TimeperiodsCache,
      isChainFrom (stateOf s._cache a) (transitionsOf s cs a) = true
        ∧ chainEnd (stateOf s._cache a) (transitionsOf s cs a)
          = stateOf (runAll s cs)._cache a := by
  induction cs with
  | nil => intro s; simp [transitionsOf, runTransitions, runAll, isChainFrom, chainEnd]
  | cons c rest ih =>
    intro s
    have hc := call_chain s c a
    have hr := ih (Call.run s c).1
    simp only [transitionsOf] at hr ⊢
    simp only [runTransitions, runAll, List.filter_append, isChainFrom_append, chainEnd_append]
    rw [hc.1, hc.2, hr.1, hr.2]
    exact ⟨rfl, rfl⟩

/-- In a chain every transition ends in `0` or `1` and changes the state. -/
theorem isChainFrom_mem (l : List Transition) :
    ∀ cur : Int, isChainFrom cur l = true →
      ∀ e ∈ l, (e.toState = 0 ∨ e.toState = 1) ∧ e.fromState ≠ e.toState := by
  induction l with
  | nil => intro _ _ e he; cases he
  | cons x rest ih =>
    intro cur h e he
    simp only [isChainFrom, Bool.and_eq_true, decide_eq_true_eq] at h
    rcases List.mem_cons.mp he with hx | hx
    · subst hx; exact ⟨h.1.1.2, h.1.2⟩
    · exact ih _ h.2 e hx

/-- In a chain every transition starts where the one before it ended. -/
theorem isChainFrom_consecutive (pre : List Transition) (e1 e2 : Transition)
    (post : List Transition) :
    ∀ cur : Int, isChainFrom cur (pre ++ e1 :: e2 :: post) = true →
      e2.fromState = e1.toState := by
  induction pre with
  | nil =>
    intro cur h
    simp only [List.nil_append, isChainFrom, Bool.and_eq_true, decide_eq_true_eq] at h
    exact h.2.1.1.1
  | cons x rest ih =>
    intro cur h
    simp only [List.cons_append, isChainFrom, Bool.and_eq_true] at h
    exact ih _ h.2

/-- A chain ends in the end state of its last transition. -/
theorem chainEnd_eq_getLast (l : List Transition) :
    ∀ cur : Int, chainEnd cur l
      = match l.getLast? with
        | none => cur
        | some e => e.toState := by
  induction l with
  | nil => intro cur; rfl
  | cons x rest ih =>
    intro cur
    cases rest with
    | nil => rfl
    | cons y tl =>
      rw [List.getLast?_cons_cons]
      simp only [chainEnd]
      have := ih x.toState
      simpa only [chainEnd] using this

/-- The state `-1` means that the key has no entry. -/
theorem find_of_stateOf_unknown (c : Cache) (a : Nat) (h : stateOf c a = -1) :
    Cache.find c a = none := by
  cases hf : Cache.find c a with
  | none => rfl
  | some v => cases v <;> simp [stateOf, hf, boolToInt] at h

/-- The states `0` and `1` mean that the key has the entry `false` or `true`. -/
theorem find_of_stateOf_known (c : Cache) (a : Nat) (x : Int) (h : stateOf c a = x)
    (hx : x = 0 ∨ x = 1) : Cache.find c a = some (decide (x = 1)) := by
  cases hf : Cache.find c a with
  | none =>
    simp only [stateOf, hf] at h
    rcases hx with hx | hx <;> rw [hx] at h <;> cases h
  | some v =>
    simp only [stateOf, hf] at h
    subst h
    cases v <;> simp [boolToInt]

/-- Every transition logged by the loop carries the address and the name of a
listed period. -/
theorem passTransitions_listed (check : Evaluator) (t : time_t) (l : List timeperiod) :
    ∀ c : Cache, ∀ e ∈ passTransitions check t c l,
      ({ addr := e.addr, name := e.name } : timeperiod) ∈ l := by
  induction l with
  | nil => intro c e he; cases he
  | cons tp rest ih =>
    intro c e he
    simp only [passTransitions, List.mem_append] at he
    rcases he with hv | hr
    · have : e.addr = tp.addr ∧ e.name = tp.name := by
        cases h : Cache.find c tp.addr with
        | none =>
          simp only [visitTransitions, h, List.mem_singleton] at hv
          subst hv; exact ⟨rfl, rfl⟩
        | some old =>
          by_cases hd : old = decide (check t tp.addr = 0)
          · simp [visitTransitions, h, hd.symm] at hv
          · simp only [visitTransitions, h] at hv
            have hne : (old != decide (check t tp.addr = 0)) = true := by simpa using hd
            simp only [hne, if_true, List.mem_singleton] at hv
            subst hv; exact ⟨rfl, rfl⟩
      rw [this.1, this.2]
      exact List.mem_cons_self _ _
    · exact List.mem_cons_of_mem _ (ih _ e hr)

/-- Every transition logged during a sequence of calls carries the address and
the name of a period listed in one of the calls. -/
theorem runTransitions_listed (cs : List Call) :
    ∀ s : TimeperiodsCache, ∀ e ∈ runTransitions s cs,
      ({ addr := e.addr, name := e.name } : timeperiod) ∈ cs.flatMap Call.listed := by
  induction cs with
  | nil => intro s e he; cases he
  | cons c rest ih =>
    intro s e he
    simp only [runTransitions, List.mem_append] at he
    rw [List.flatMap_cons, List.mem_append]
    rcases he with hc | hr
    · left
      cases c with
      | update now l check =>
        by_cases hlt : now < plus_one_minute s._last_update
        · simp [Call.transitions, hlt] at hc
        · simp only [Call.transitions, hlt, if_false] at hc
          exact passTransitions_listed check (to_time_t now) l s._cache e hc
      | logCurrentTimeperiods wall l check =>
        exact passTransitions_listed check (to_time_t wall) l s._cache e hc
      | inTimeperiod tp => cases hc
      | inTimeperiodByName n l => cases hc
    · right
      exact ih _ e hr

/-- The chain of one period over a sequence of calls that starts from an empty
cache, on the calls of `logTransition`. -/
theorem transitions_chain_core (s0 : TimeperiodsCache) (cs : List Call) (a : Nat)
    (h0 : s0._cache = []) :
    (∀ e : Transition, (transitionsOf s0 cs a).head? = some e → e.fromState = -1)
      ∧ (∀ (pre : List Transition) (e1 e2 : Transition) (post : List Transition),
          transitionsOf s0 cs a = pre ++ e1 :: e2 :: post → e2.fromState = e1.toState)
      ∧ (∀ e ∈ transitionsOf s0 cs a,
          (e.toState = 0 ∨ e.toState = 1) ∧ e.fromState ≠ e.toState)
      ∧ Cache.find (runAll s0 cs)._cache a
          = (transitionsOf s0 cs a).getLast?.map (fun e => decide (e.toState = 1))
      ∧ (∀ n : String, (∀ p ∈ cs.flatMap Call.listed, (p.name = n ↔ p.addr = a)) →
          (runTransitions s0 cs).filter (fun e => decide (e.name = n))
            = transitionsOf s0 cs a)
      ∧ (∀ (check : Evaluator) (t : time_t) (c : Cache) (l : List timeperiod),
          (pass check t c l).2 = (passTransitions check t c l).map Transition.line) := by
  have hstart : stateOf s0._cache a = -1 := by rw [h0]; rfl
  have hchain := run_chain a cs s0
  rw [hstart] at hchain
  obtain ⟨hc, hend⟩ := hchain
  have hmem := isChainFrom_mem (transitionsOf s0 cs a) (-1) hc
  refine ⟨?_, ?_, hmem, ?_, ?_, ?_⟩
  · intro e he
    cases hl : transitionsOf s0 cs a with
    | nil => rw [hl] at he; cases he
    | cons x rest =>
      rw [hl] at he hc
      simp only [List.head?_cons, Option.some.injEq] at he
      subst he
      simp only [isChainFrom, Bool.and_eq_true, decide_eq_true_eq] at hc
      exact hc.1.1.1
  · intro pre e1 e2 post hsplit
    rw [hsplit] at hc
    exact isChainFrom_consecutive pre e1 e2 post (-1) hc
  · rw [chainEnd_eq_getLast] at hend
    cases hl : (transitionsOf s0 cs a).getLast? with
    | none =>
      rw [hl] at hend
      simp only [Option.map_none']
      exact find_of_stateOf_unknown _ a hend.symm
    | some e =>
      rw [hl] at hend
      simp only [Option.map_some']
      have he : e ∈ transitionsOf s0 cs a := List.mem_of_getLast?_eq_some hl
      exact find_of_stateOf_known _ a e.toState hend.symm (hmem e he).1
  · intro n hn
    simp only [transitionsOf]
    apply List.filter_congr
    intro e he
    have := hn _ (runTransitions_listed cs s0 e he)
    simp only at this
    by_cases hea : e.addr = a
    · simp [hea, this.mpr hea]
    · have hen : ¬ e.name = n := fun h => hea (this.mp h)
      simp [hea, hen]
  · intro check t c l
    exact pass_lines_eq check t l c

/-- A line written by `logTransition` is recognised as such. -/
theorem isTransitionLine_line (e : Transition) : isTransitionLine e.line = true := by
  simp only [isTransitionLine, Transition.line, logTransition, decide_True, Bool.true_and]
  rw [List.isPrefixOf_iff_prefix]
  simp only [transitionMessage, transitionHeader, String.data_append, List.append_assoc]
  exact List.prefix_append _ _

/-- The report about an empty cache holds no transition line. -/
theorem filter_emptyReport (c : Cache) (b : Bool) :
    (emptyReport c b).filter isTransitionLine = [] := by
  unfold emptyReport
  split
  · decide
  · split
    · decide
    · rfl

/-- A list of warnings holds no transition line. -/
theorem filter_of_warnings (lines : List LogLine)
    (h : ∀ line ∈ lines, line.level = LogLevel.warning) :
    lines.filter isTransitionLine = [] := by
  rw [List.filter_eq_nil_iff]
  intro line hline
  simp [isTransitionLine, h line hline]

/-- The transition lines among the lines of the loop are all of them. -/
theorem filter_pass (check : Evaluator) (t : time_t) (c : Cache) (l : List timeperiod) :
    (pass check t c l).2.filter isTransitionLine
      = (passTransitions check t c l).map Transition.line := by
  rw [pass_lines_eq, List.filter_eq_self]
  intro line hline
  rw [List.mem_map] at hline
  obtain ⟨e, _, he⟩ := hline
  rw [← he]
  exact isTransitionLine_line e

/-- The transition lines that a call really emits are the lines of its calls
of `logTransition`, in order. -/
theorem filter_run (s : TimeperiodsCache) (c : Call) :
    (Call.run s c).2.filter isTransitionLine
      = (Call.transitions s c).map Transition.line := by
  cases c with
  | update now l check =>
    simp only [Call.run, Call.transitions]
    by_cases hlt : now < plus_one_minute s._last_update
    · rw [update_of_guard s now l check hlt, if_pos hlt]; rfl
    · rw [update_of_not_guard s now l check hlt, if_neg hlt]
      simp only [List.filter_append, filter_emptyReport, List.append_nil]
      exact filter_pass check (to_time_t now) s._cache l
  | logCurrentTimeperiods wall l check =>
    exact filter_pass check (to_time_t wall) s._cache l
  | inTimeperiod tp =>
    exact filter_of_warnings _ (inTimeperiod_lines s tp).2
  | inTimeperiodByName n l =>
    exact filter_of_warnings _ (inTimeperiodByName_lines s n l).2

/-- The transition lines in the log of a sequence of calls are the lines of
its calls of `logTransition`, in order. -/
theorem filter_runLog (cs : List Call) :
    ∀ s : TimeperiodsCache,
      (runLog s cs).filter isTransitionLine = (runTransitions s cs).map Transition.line := by
  induction cs with
  | nil => intro s; rfl
  | cons c rest ih =>
    intro s
    simp only [runLog, runTransitions, List.filter_append, List.map_append]
    rw [filter_run, ih]

/-- In a chain that starts from `-1`, `0` or `1` every transition starts from
one of these. -/
theorem isChainFrom_fromState (l : List Transition) :
    ∀ cur : Int, (cur = -1 ∨ cur = 0 ∨ cur = 1) → isChainFrom cur l = true →
      ∀ e ∈ l, e.fromState = -1 ∨ e.fromState = 0 ∨ e.fromState = 1 := by
  induction l with
  | nil => intro _ _ _ e he; cases he
  | cons x rest ih =>
    intro cur hcur h e he
    simp only [isChainFrom, Bool.and_eq_true, decide_eq_true_eq] at h
    rcases List.mem_cons.mp he with hx | hx
    · subst hx; rw [h.1.1.1]; exact hcur
    · exact ih x.toState (Or.inr h.1.1.2) h.2 e hx

/-- The text of a transition line, for the states that the loop prints. -/
theorem line_text (e : Transition)
    (hf : e.fromState = -1 ∨ e.fromState = 0 ∨ e.fromState = 1)
    (ht : e.toState = 0 ∨ e.toState = 1) :
    e.line = { level := LogLevel.informational,
               message := "TRANSICIÓN DE PERIODO DE TIEMPO: " ++ e.name
                 ++ (if e.fromState = -1 then ";-1" else if e.fromState = 0 then ";0" else ";1")
                 ++ (if e.toState = 0 then ";0" else ";1") } := by
  obtain ⟨addr, name, f, t⟩ := e
  simp only at hf ht
  rcases hf with hf | hf | hf <;> rcases ht with ht | ht <;> subst hf <;> subst ht <;>
    (simp only [Transition.line, logTransition, transitionMessage, String.append_assoc]; rfl)

/-- C15: over any sequence of calls that starts from an empty cache, the
transition lines in the log are, in order, the lines written by the calls of
`logTransition`, and those made for one period are lines of the log, in order,
with the text `name;from;to`. The transitions logged for one period form a
chain: the first has `from = -1`, every later one has `from` equal to the `to`
of the one before it, every one has `to` in `{0, 1}` and `from` different from
`to`, and after the sequence the cached value of the period is the `to` of its
most recent transition (no entry when there is none). When periods are
distinctly named, so that the name `n` is borne by the period at address `a`
only, these are the transitions logged under the name `n`. -/
theorem transitions_form_chain (s0 : TimeperiodsCache) (cs : List Call) (a : Nat)
    (h0 : s0._cache = []) :
    (runLog s0 cs).filter isTransitionLine = (runTransitions s0 cs).map Transition.line
      ∧ ((transitionsOf s0 cs a).map Transition.line).Sublist (runLog s0 cs)
      ∧ (∀ e ∈ transitionsOf s0 cs a,
          e ∈ runTransitions s0 cs ∧ e.addr = a
            ∧ e.line
              = { level := LogLevel.informational,
                  message := "TRANSICIÓN DE PERIODO DE TIEMPO: " ++ e.name
                    ++ (if e.fromState = -1 then ";-1"
                        else if e.fromState = 0 then ";0" else ";1")
                    ++ (if e.toState = 0 then ";0" else ";1") })
      ∧ (∀ e : Transition, (transitionsOf s0 cs a).head? = some e → e.fromState = -1)
      ∧ (∀ (pre : List Transition) (e1 e2 : Transition) (post : List Transition),
          transitionsOf s0 cs a = pre ++ e1 :: e2 :: post → e2.fromState = e1.toState)
      ∧ (∀ e ∈ transitionsOf s0 cs a,
          (e.toState = 0 ∨ e.toState = 1) ∧ e.fromState ≠ e.toState)
      ∧ Cache.find (runAll s0 cs)._cache a
          = (transitionsOf s0 cs a).getLast?.map (fun e => decide (e.toState = 1))
      ∧ (∀ n : String, (∀ p ∈ cs.flatMap Call.listed, (p.name = n ↔ p.addr = a)) →
          (runTransitions s0 cs).filter (fun e => decide (e.name = n))
            = transitionsOf s0 cs a)
      ∧ (∀ (check : Evaluator) (t : time_t) (c : Cache) (l : List timeperiod),
          (pass check t c l).2 = (passTransitions check t c l).map Transition.line) := by
  have hcore := transitions_chain_core s0 cs a h0
  have hbridge := filter_runLog cs s0
  have hstart : stateOf s0._cache a = -1 := by rw [h0]; rfl
  have hchain := (run_chain a cs s0).1
  rw [hstart] at hchain
  refine ⟨hbridge, ?_, ?_, hcore.1, hcore.2.1, hcore.2.2.1, hcore.2.2.2.1, hcore.2.2.2.2.1,
    hcore.2.2.2.2.2⟩
  · have h1 : ((transitionsOf s0 cs a).map Transition.line).Sublist
        ((runTransitions s0 cs).map Transition.line) :=
      List.Sublist.map _ (List.filter_sublist _)
    rw [← hbridge] at h1
    exact h1.trans (List.filter_sublist _)
  · intro e he
    have hmem : e ∈ runTransitions s0 cs ∧ decide (e.addr = a) = true := by
      simpa only [transitionsOf, List.mem_filter] using he
    refine ⟨hmem.1, of_decide_eq_true hmem.2, ?_⟩
    exact line_text e
      (isChainFrom_fromState _ (-1) (Or.inl rfl) hchain e he) (hcore.2.2.1 e he).1

/-- Witness of C15: `24x7` is first seen active one minute after the epoch and
computed inactive ninety seconds later: the log holds `24x7;-1;1` then
`24x7;1;0`, and the cached value is the `to` of the second. -/
theorem transitions_form_chain_witness :
    TimeperiodsCache.new._cache = []
      ∧ (runLog TimeperiodsCache.new
          [Call.update 60000000000 [{ addr := 1, name := "24x7" }]
            (fun t _ => if t < 100 then 0 else 1),
           Call.inTimeperiod (some { addr := 2, name := "workhours" }),
           Call.update 150000000000 [{ addr := 1, name := "24x7" }]
            (fun t _ => if t < 100 then 0 else 1)]).filter isTransitionLine
        = [{ level := LogLevel.informational,
             message := "TRANSICIÓN DE PERIODO DE TIEMPO: 24x7;-1;1" },
           { level := LogLevel.informational,
             message := "TRANSICIÓN DE PERIODO DE TIEMPO: 24x7;1;0" }]
      ∧ Cache.find (runAll TimeperiodsCache.new
          [Call.update 60000000000 [{ addr := 1, name := "24x7" }]
            (fun t _ => if t < 100 then 0 else 1),
           Call.inTimeperiod (some { addr := 2, name := "workhours" }),
           Call.update 150000000000 [{ addr := 1, name := "24x7" }]
            (fun t _ => if t < 100 then 0 else 1)])._cache 1
        = some false :=
  ⟨rfl,
   (transitions_form_chain TimeperiodsCache.new
      [Call.update 60000000000 [{ addr := 1, name := "24x7" }]
        (fun t _ => if t < 100 then 0 else 1),
       Call.inTimeperiod (some { addr := 2, name := "workhours" }),
       Call.update 150000000000 [{ addr := 1, name := "24x7" }]
        (fun t _ => if t < 100 then 0 else 1)] 1 rfl).1.trans (by decide),
   (transitions_form_chain TimeperiodsCache.new
      [Call.update 60000000000 [{ addr := 1, name := "24x7" }]
        (fun t _ => if t < 100 then 0 else 1),
       Call.inTimeperiod (some { addr := 2, name := "workhours" }),
       Call.update 150000000000 [{ addr := 1, name := "24x7" }]
        (fun t _ => if t < 100 then 0 else 1)] 1 rfl).2.2.2.2.2.2.1.trans (by decide)⟩

end TimeperiodsCache

end Livestatus
